import Mathlib

/-!
Verification of esp8266_waveformPulseCounter

A shallow embedding of `src/waveformPulseCounter.c`: the single waveform
record, the two callback slots, the timer bookkeeping, and the five public
operations together with the timer interrupt routine.

* Machine integers are natural numbers reduced explicitly (`% 2^32`,
  `% 2^31`, `% 2^16`).
* Every call that leaves the translation unit (timer driver, GPIO registers,
  interrupt lock, user callbacks) is appended to `Driver.trace`.
* The cycle counter is an oracle: the k-th execution of `GetCycleCount`
  returns `ccount k % 2^32`.
* A user callback is a function pointer whose body is outside the translation
  unit: its invocation is recorded in the trace and it does not call back into
  the driver.
* Every entry point, the interrupt routine included, runs to completion before
  the next one starts.
-/

namespace WaveformPulseCounter

/-! ## Definitions -/

/-- Build parameters that the translation unit takes from the Arduino core:
the value of `clockCyclesPerMicrosecond()`, whether `F_CPU == 160000000`, and
the successive values of the CCOUNT register. -/
structure Platform where
  cyclesPerUs : Nat
  cpu160 : Bool
  ccount : Nat → Nat

/-- Calls made to code outside the translation unit, in program order. -/
inductive Event where
  | intrLock
  | intrUnlock
  | timer1Disable
  | timer1IsrInit
  | timer1AttachInterrupt (handler : Bool)
  | timer1Enable
  | timer1Write (a : Nat)
  | writeGPOS (mask : Nat)
  | writeGPOC (mask : Nat)
  | callPerPulse (fn : Nat)
  | callPulsesDepleted (fn : Nat)
deriving DecidableEq, Repr

/-- The `Waveform` record (source lines 55-63). -/
structure Waveform where
  nextServiceCycle : Nat
  gpioMask : Nat
  state : Bool
  nextTimeHighCycles : Nat
  enabled : Bool
  nextTimeLowCycles : Nat
  pulsesToGo : Nat
deriving DecidableEq, Repr

/-- All file-scope variables of the translation unit, the number of cycle
counter reads made so far, and the trace of outgoing calls. A callback slot
holds `none` for `NULL` and `some fn` for a function pointer. -/
structure Driver where
  waveform : Waveform
  perPulseCB : Option Nat
  pulsesDepletedCB : Option Nat
  timerRunning : Bool
  lastCycleCount : Nat
  reads : Nat
  trace : List Event
deriving DecidableEq, Repr

/-- The initial values of the file-scope variables. -/
def initial : Driver :=
  { waveform :=
      { nextServiceCycle := 0, gpioMask := 0, state := false, nextTimeHighCycles := 0,
        enabled := false, nextTimeLowCycles := 0, pulsesToGo := 0 }
    perPulseCB := none
    pulsesDepletedCB := none
    timerRunning := false
    lastCycleCount := 0
    reads := 0
    trace := [] }

/-- `#define MAXIRQUS (10000)`. -/
def MAXIRQUS : Nat := 10000

/-- Unsigned 32-bit addition. -/
def add32 (a b : Nat) : Nat := (a + b) % 2 ^ 32

/-- Unsigned 32-bit subtraction `a - b`: the two's complement of `b` is added
to `a` and the sum is reduced modulo `2 ^ 32`. -/
def sub32 (a b : Nat) : Nat := (2 ^ 32 - b % 2 ^ 32 + a % 2 ^ 32) % 2 ^ 32

/-- Unsigned 32-bit multiplication. -/
def mul32 (a b : Nat) : Nat := (a * b) % 2 ^ 32

/-- Reinterpretation of a 32-bit pattern as `int32_t`. -/
def toInt32 (a : Nat) : Int :=
  if a % 2 ^ 32 < 2 ^ 31 then ((a % 2 ^ 32 : Nat) : Int) else ((a % 2 ^ 32 : Nat) : Int) - 2 ^ 32

/-- Append one outgoing call to the trace. -/
def Driver.emit (d : Driver) (e : Event) : Driver :=
  { d with trace := d.trace ++ [e] }

/-- Source lines 72-74. -/
def MicrosecondsToCycles (p : Platform) (microseconds : Nat) : Nat :=
  mul32 p.cyclesPerUs microseconds

/-- Source lines 76-81. -/
def min_u32 (a b : Nat) : Nat :=
  if a < b then a else b

/-- Source lines 83-90. -/
def ReloadTimer (a : Nat) (d : Driver) : Driver :=
  if a > 32 then d.emit (Event.timer1Write a) else d.emit (Event.timer1Write 32)

/-- Source lines 92-96: read the cycle counter. -/
def GetCycleCount (p : Platform) (d : Driver) : Nat × Driver :=
  (p.ccount d.reads % 2 ^ 32, { d with reads := d.reads + 1 })

/-- Source lines 103-110. -/
def initTimer (p : Platform) (d : Driver) : Driver :=
  let d := d.emit Event.timer1Disable
  let d := d.emit Event.timer1IsrInit
  let d := d.emit (Event.timer1AttachInterrupt true)
  let r := GetCycleCount p d
  let d := { r.2 with lastCycleCount := r.1 }
  let d := d.emit Event.timer1Enable
  { d with timerRunning := true }

/-- Source lines 112-117. -/
def deinitTimer (d : Driver) : Driver :=
  let d := d.emit (Event.timer1AttachInterrupt false)
  let d := d.emit Event.timer1Disable
  let d := d.emit Event.timer1IsrInit
  { d with timerRunning := false }

/-- Source lines 119-131. The `int` constant `1` is shifted as a 32-bit value
and the result is converted to the `uint16_t` field. (C defines the shift only
for `pin < 32`.) -/
def setWaveformPulseCountPin (pin : Nat) (d : Driver) : Driver × Bool :=
  if d.timerRunning || pin == 16 then
    (d, false)
  else
    ({ d with waveform := { d.waveform with gpioMask := (1 <<< pin) % 2 ^ 32 % 2 ^ 16 } }, true)

/-- Source lines 136-162. The two durations are stored in 31-bit fields. -/
def startWaveform (p : Platform) (timeHighUS timeLowUS pulses : Nat) (d : Driver) :
    Driver × Bool :=
  let d := d.emit Event.intrLock
  let d := { d with waveform := { d.waveform with
    nextTimeHighCycles := sub32 (MicrosecondsToCycles p timeHighUS) 70 % 2 ^ 31 } }
  let d := { d with waveform := { d.waveform with
    nextTimeLowCycles := sub32 (MicrosecondsToCycles p timeLowUS) 70 % 2 ^ 31 } }
  let d := { d with waveform := { d.waveform with pulsesToGo := pulses } }
  let d :=
    if !d.waveform.enabled then
      let d := { d with waveform := { d.waveform with state := false } }
      let r := GetCycleCount p d
      let d := { r.2 with waveform := { r.2.waveform with
        nextServiceCycle := add32 r.1 (MicrosecondsToCycles p 1) } }
      let d := { d with waveform := { d.waveform with enabled := true } }
      let d := if !d.timerRunning then initTimer p d else d
      ReloadTimer (MicrosecondsToCycles p 1) d
    else d
  let d := d.emit Event.intrUnlock
  (d, true)

/-- Source lines 165-179. -/
def stopWaveform (d : Driver) : Driver × Bool :=
  if !d.timerRunning then
    (d, false)
  else if !d.waveform.enabled then
    (d, false)
  else
    let d := { d with waveform := { d.waveform with enabled := false } }
    let d := deinitTimer d
    (d, true)

/-- One pass of the body of the `do ... while` loop after the `enabled` test
(source lines 190-219): returns the new state and `nextEventCycles`. -/
def timer1Pass (p : Platform) (d : Driver) : Driver × Nat :=
  let nextEventCycles := MicrosecondsToCycles p MAXIRQUS
  let r := GetCycleCount p d
  let now := r.1
  let d := r.2
  let cyclesToGo := toInt32 (sub32 d.waveform.nextServiceCycle now)
  if cyclesToGo < 0 then
    let d := { d with waveform := { d.waveform with state := !d.waveform.state } }
    if d.waveform.state then
      let d := d.emit (Event.writeGPOS d.waveform.gpioMask)
      let d := { d with waveform := { d.waveform with
        nextServiceCycle := add32 now d.waveform.nextTimeHighCycles } }
      (d, min_u32 nextEventCycles d.waveform.nextTimeHighCycles)
    else
      let d := d.emit (Event.writeGPOC d.waveform.gpioMask)
      let d := { d with waveform := { d.waveform with
        nextServiceCycle := add32 now d.waveform.nextTimeLowCycles } }
      let nextEventCycles := min_u32 nextEventCycles d.waveform.nextTimeLowCycles
      let d := { d with waveform := { d.waveform with
        pulsesToGo := sub32 d.waveform.pulsesToGo 1 } }
      let d :=
        match d.perPulseCB with
        | some fn => d.emit (Event.callPerPulse fn)
        | none => d
      (d, nextEventCycles)
  else
    let deltaCycles := sub32 d.waveform.nextServiceCycle now
    (d, min_u32 nextEventCycles deltaCycles)

/-- The `do ... while (--cnt && nextEventCycles < MicrosecondsToCycles(4))`
loop (source lines 189-220). The first argument is the value `cnt` will have
after the `--cnt` of the pass about to run. The result is `none` when the
routine returned from inside the loop (waveform not enabled) and
`some nextEventCycles` when the loop was left through its condition. -/
def timer1Loop (p : Platform) : Nat → Driver → Driver × Option Nat
  | 0, d =>
    if !d.waveform.enabled then (d, none)
    else
      let r := timer1Pass p d
      (r.1, some r.2)
  | n + 1, d =>
    if !d.waveform.enabled then (d, none)
    else
      let r := timer1Pass p d
      if r.2 < MicrosecondsToCycles p 4 then timer1Loop p n r.1 else (r.1, some r.2)

/-- The rearm interval computed at source lines 232-245. -/
def rearmCycles (p : Platform) (nextEventCycles : Nat) : Nat :=
  if p.cpu160 then
    (if nextEventCycles ≤ mul32 5 (MicrosecondsToCycles p 1) then
        MicrosecondsToCycles p 1 / 2
      else sub32 nextEventCycles (mul32 5 (MicrosecondsToCycles p 1))) >>> 1
  else
    if nextEventCycles ≤ mul32 6 (MicrosecondsToCycles p 1) then
      MicrosecondsToCycles p 1 / 2
    else sub32 nextEventCycles (mul32 6 (MicrosecondsToCycles p 1))

/-- Source lines 222-230: the depletion check after the loop. -/
def depletionCheck (d : Driver) : Driver :=
  if d.waveform.pulsesToGo = 0 then
    let d := (stopWaveform d).1
    match d.pulsesDepletedCB with
    | some fn => d.emit (Event.callPulsesDepleted fn)
    | none => d
  else d

/-- Source lines 181-248: the timer interrupt routine. -/
def timer1Interrupt (p : Platform) (d : Driver) : Driver :=
  let cnt := if p.cpu160 then 20 else 10
  match timer1Loop p (cnt - 1) d with
  | (d, none) => d
  | (d, some nextEventCycles) =>
    let r := GetCycleCount p d
    let d := { r.2 with lastCycleCount := r.1 }
    let d := depletionCheck d
    ReloadTimer (rearmCycles p nextEventCycles) d

/-- Source lines 251-261. -/
def setPerPulseCallback (p : Platform) (fn : Option Nat) (d : Driver) : Driver :=
  let d := { d with perPulseCB := fn }
  let d :=
    if !d.timerRunning && fn.isSome then initTimer p d
    else if d.timerRunning && !fn.isSome then
      (if !d.waveform.enabled then deinitTimer d else d)
    else d
  ReloadTimer (MicrosecondsToCycles p 1) d

/-- Source lines 264-274. -/
def setPulsesDepletedCallback (p : Platform) (fn : Option Nat) (d : Driver) : Driver :=
  let d := { d with pulsesDepletedCB := fn }
  let d :=
    if !d.timerRunning && fn.isSome then initTimer p d
    else if d.timerRunning && !fn.isSome then
      (if !d.waveform.enabled then deinitTimer d else d)
    else d
  ReloadTimer (MicrosecondsToCycles p 1) d

/-- The entry points of the driver: the five public functions and the timer
interrupt. -/
inductive Op where
  | selectPin (pin : Nat)
  | start (timeHighUS timeLowUS pulses : Nat)
  | stop
  | setOnPulse (fn : Option Nat)
  | setOnDepleted (fn : Option Nat)
  | interrupt
deriving DecidableEq, Repr

/-- Run one entry point to completion. -/
def Op.apply (p : Platform) : Op → Driver → Driver
  | .selectPin pin, d => (setWaveformPulseCountPin pin d).1
  | .start h l n, d => (startWaveform p h l n d).1
  | .stop, d => (stopWaveform d).1
  | .setOnPulse fn, d => setPerPulseCallback p fn d
  | .setOnDepleted fn, d => setPulsesDepletedCallback p fn d
  | .interrupt, d => timer1Interrupt p d

/-- Run a sequence of entry points, each to completion, in order. -/
def run (p : Platform) (ops : List Op) (d : Driver) : Driver :=
  ops.foldl (fun acc op => op.apply p acc) d

/-- States the driver can be in after some sequence of entry points from the
initial state. -/
def Reachable (p : Platform) (d : Driver) : Prop :=
  ∃ ops : List Op, run p ops initial = d

/-- Invoke the interrupt routine `k` times in a row. -/
def interrupts (p : Platform) : Nat → Driver → Driver
  | 0, d => d
  | k + 1, d => interrupts p k (timer1Interrupt p d)

/-- Number of per-pulse callback invocations in a trace. -/
def perPulseCalls (t : List Event) : Nat :=
  t.countP fun e => match e with
    | .callPerPulse _ => true
    | _ => false

/-- Number of pulses-depleted callback invocations in a trace. -/
def depletedCalls (t : List Event) : Nat :=
  t.countP fun e => match e with
    | .callPulsesDepleted _ => true
    | _ => false

/-- Number of GPIO register writes in a trace. -/
def gpioWrites (t : List Event) : Nat :=
  t.countP fun e => match e with
    | .writeGPOS _ => true
    | .writeGPOC _ => true
    | _ => false

/-- Number of timer arm operations in a trace. -/
def timerWrites (t : List Event) : Nat :=
  t.countP fun e => match e with
    | .timer1Write _ => true
    | _ => false

/-- A platform with an 80 MHz clock whose cycle counter advances by 100
cycles between consecutive reads. -/
def esp80 : Platform :=
  { cyclesPerUs := 80, cpu160 := false, ccount := fun k => 100 * (k + 1) }

/-- The fields that one pass of the interrupt loop never writes. -/
def LoopFrame (a b : Driver) : Prop :=
  b.waveform.enabled = a.waveform.enabled ∧
  b.timerRunning = a.timerRunning ∧
  b.waveform.gpioMask = a.waveform.gpioMask ∧
  b.perPulseCB = a.perPulseCB ∧
  b.pulsesDepletedCB = a.pulsesDepletedCB ∧
  b.waveform.nextTimeHighCycles = a.waveform.nextTimeHighCycles ∧
  b.waveform.nextTimeLowCycles = a.waveform.nextTimeLowCycles ∧
  b.lastCycleCount = a.lastCycleCount

/-- The trace of `b` continues the trace of `a`. -/
def Extends (a b : Driver) : Prop :=
  ∃ es : List Event, b.trace = a.trace ++ es

/-- A waveform is enabled only while the timer subsystem is running. -/
def TimerInv (d : Driver) : Prop :=
  d.waveform.enabled = true → d.timerRunning = true

/-- The outgoing calls of `initTimer`, in order. -/
def initTimerCalls : List Event :=
  [Event.timer1Disable, Event.timer1IsrInit, Event.timer1AttachInterrupt true,
    Event.timer1Enable]

/-- The outgoing calls of `deinitTimer`, in order. -/
def deinitTimerCalls : List Event :=
  [Event.timer1AttachInterrupt false, Event.timer1Disable, Event.timer1IsrInit]

/-- A state with a waveform running on pin 2: pin selection followed by
`startWaveform(1000, 1000, 5)` on the 80 MHz platform. -/
def running80 : Driver :=
  run esp80 [Op.selectPin 2, Op.start 1000 1000 5] initial

/-- The state after pin selection and `startWaveform(0, 1000, 1)` on the
80 MHz platform. -/
def zeroHigh80 : Driver :=
  run esp80 [Op.selectPin 2, Op.start 0 1000 1] initial

/-- The state after pin selection, registration of both callbacks and
`startWaveform(1, 1, 1)` on the 80 MHz platform. -/
def short80 : Driver :=
  run esp80 [Op.selectPin 2, Op.setOnPulse (some 7), Op.setOnDepleted (some 9),
    Op.start 1 1 1] initial

/-- The signed difference tested at source lines 200-202 by the loop pass
that is about to run on `d`: `nextServiceCycle - now` as an `int32_t`, where
`now` is the next value of the cycle counter. -/
def cyclesToGo (p : Platform) (d : Driver) : Int :=
  toInt32 (sub32 d.waveform.nextServiceCycle (p.ccount d.reads % 2 ^ 32))

/-- Whether some pass of the loop started on `d` finds the event due; the
first argument is as for `timer1Loop`. -/
def findsDue (p : Platform) : Nat → Driver → Bool
  | 0, d => d.waveform.enabled && decide (cyclesToGo p d < 0)
  | n + 1, d =>
    d.waveform.enabled &&
      (decide (cyclesToGo p d < 0) ||
        (decide ((timer1Pass p d).2 < MicrosecondsToCycles p 4) &&
          findsDue p n (timer1Pass p d).1))

/-- Every timer arm operation recorded in a trace loads at least 32 cycles. -/
def ArmedOK (t : List Event) : Prop :=
  ∀ a : Nat, Event.timer1Write a ∈ t → 32 ≤ a

/-- The initial value of `cnt` in the interrupt routine (source lines
183-187). -/
def loopCount (p : Platform) : Nat :=
  if p.cpu160 then 20 else 10

/-- The state inside the first interrupt after pin selection and
`startWaveform(1, 1, 0)` on the 80 MHz platform, when the first loop pass has
raised the pin. -/
def zeroCount80 : Driver :=
  (timer1Pass esp80 (run esp80 [Op.selectPin 2, Op.start 1 1 0] initial)).1

/-- The state after pin selection, registration of the pulses-depleted
callback and `startWaveform(1000, 1000, 0)` on the 80 MHz platform. -/
def zeroPulses80 : Driver :=
  run esp80 [Op.selectPin 2, Op.setOnDepleted (some 9), Op.start 1000 1000 0] initial

/-- An 80 MHz platform whose cycle counter advances by 100000 cycles between
consecutive reads, so that every interrupt comes after the scheduled event. -/
def esp80late : Platform :=
  { cyclesPerUs := 80, cpu160 := false, ccount := fun k => 100000 * (k + 1) }

/-- The state after pin selection, registration of both callbacks,
`startWaveform(1000, 1000, 5)`, one interrupt (which raises the pin) and a
retune to a pulse count of zero with `startWaveform(1000, 1000, 0)`. -/
def retuneZero80 : Driver :=
  run esp80late [Op.selectPin 2, Op.setOnPulse (some 7), Op.setOnDepleted (some 9),
    Op.start 1000 1000 5, Op.interrupt, Op.start 1000 1000 0] initial

/-! ## Theorems -/

/-! ### Unfolding and frame lemmas -/

@[simp] theorem emit_waveform (d : Driver) (e : Event) : (d.emit e).waveform = d.waveform := rfl

@[simp] theorem emit_timerRunning (d : Driver) (e : Event) :
    (d.emit e).timerRunning = d.timerRunning := rfl

@[simp] theorem emit_perPulseCB (d : Driver) (e : Event) :
    (d.emit e).perPulseCB = d.perPulseCB := rfl

@[simp] theorem emit_pulsesDepletedCB (d : Driver) (e : Event) :
    (d.emit e).pulsesDepletedCB = d.pulsesDepletedCB := rfl

@[simp] theorem emit_lastCycleCount (d : Driver) (e : Event) :
    (d.emit e).lastCycleCount = d.lastCycleCount := rfl

@[simp] theorem emit_reads (d : Driver) (e : Event) : (d.emit e).reads = d.reads := rfl

@[simp] theorem emit_trace (d : Driver) (e : Event) : (d.emit e).trace = d.trace ++ [e] := rfl

theorem ReloadTimer_eq (a : Nat) (d : Driver) :
    ReloadTimer a d = d.emit (Event.timer1Write (if a > 32 then a else 32)) := by
  unfold ReloadTimer
  split_ifs <;> rfl

theorem deinitTimer_eq (d : Driver) :
    deinitTimer d = { d with timerRunning := false, trace := d.trace ++ deinitTimerCalls } := by
  simp [deinitTimer, Driver.emit, deinitTimerCalls]

theorem initTimer_eq (p : Platform) (d : Driver) :
    initTimer p d =
      { d with
        timerRunning := true
        lastCycleCount := p.ccount d.reads % 2 ^ 32
        reads := d.reads + 1
        trace := d.trace ++ initTimerCalls } := by
  simp [initTimer, Driver.emit, initTimerCalls, GetCycleCount]

theorem loopFrame_refl (a : Driver) : LoopFrame a a := by
  simp [LoopFrame]

theorem loopFrame_trans {a b c : Driver} (h1 : LoopFrame a b) (h2 : LoopFrame b c) :
    LoopFrame a c := by
  simp only [LoopFrame] at *
  simp [h1, h2]

theorem extends_refl (a : Driver) : Extends a a := ⟨[], by simp⟩

theorem extends_trans {a b c : Driver} (h1 : Extends a b) (h2 : Extends b c) :
    Extends a c := by
  obtain ⟨e1, h1⟩ := h1
  obtain ⟨e2, h2⟩ := h2
  exact ⟨e1 ++ e2, by rw [h2, h1, List.append_assoc]⟩

theorem extends_emit (d : Driver) (e : Event) : Extends d (d.emit e) := ⟨[e], rfl⟩

theorem timer1Loop_disabled (p : Platform) (n : Nat) (d : Driver)
    (h : d.waveform.enabled = false) : timer1Loop p n d = (d, none) := by
  cases n <;> simp [timer1Loop, h]

theorem timer1Loop_zero (p : Platform) (d : Driver) (h : d.waveform.enabled = true) :
    timer1Loop p 0 d = ((timer1Pass p d).1, some (timer1Pass p d).2) := by
  simp [timer1Loop, h]

theorem timer1Loop_succ (p : Platform) (n : Nat) (d : Driver) (h : d.waveform.enabled = true) :
    timer1Loop p (n + 1) d =
      if (timer1Pass p d).2 < MicrosecondsToCycles p 4 then timer1Loop p n (timer1Pass p d).1
      else ((timer1Pass p d).1, some (timer1Pass p d).2) := by
  simp [timer1Loop, h]

theorem timer1Pass_frame (p : Platform) (d : Driver) : LoopFrame d (timer1Pass p d).1 := by
  unfold timer1Pass LoopFrame
  simp only [GetCycleCount, Driver.emit]
  split_ifs <;> (try cases d.perPulseCB) <;> simp

theorem timer1Pass_extends (p : Platform) (d : Driver) : Extends d (timer1Pass p d).1 := by
  unfold timer1Pass Extends
  simp only [GetCycleCount, Driver.emit]
  split_ifs
  · exact ⟨_, rfl⟩
  · cases d.perPulseCB with
    | none => exact ⟨_, rfl⟩
    | some fn =>
      exact ⟨[Event.writeGPOC d.waveform.gpioMask, Event.callPerPulse fn], by simp⟩
  · exact ⟨[], by simp⟩

theorem timer1Loop_frame (p : Platform) (n : Nat) (d : Driver) :
    LoopFrame d (timer1Loop p n d).1 := by
  induction n generalizing d with
  | zero =>
    cases h : d.waveform.enabled
    · rw [timer1Loop_disabled p 0 d h]; exact loopFrame_refl d
    · rw [timer1Loop_zero p d h]; exact timer1Pass_frame p d
  | succ n ih =>
    cases h : d.waveform.enabled
    · rw [timer1Loop_disabled p _ d h]; exact loopFrame_refl d
    · rw [timer1Loop_succ p n d h]
      split_ifs
      · exact loopFrame_trans (timer1Pass_frame p d) (ih _)
      · exact timer1Pass_frame p d

theorem timer1Loop_extends (p : Platform) (n : Nat) (d : Driver) :
    Extends d (timer1Loop p n d).1 := by
  induction n generalizing d with
  | zero =>
    cases h : d.waveform.enabled
    · rw [timer1Loop_disabled p 0 d h]; exact extends_refl d
    · rw [timer1Loop_zero p d h]; exact timer1Pass_extends p d
  | succ n ih =>
    cases h : d.waveform.enabled
    · rw [timer1Loop_disabled p _ d h]; exact extends_refl d
    · rw [timer1Loop_succ p n d h]
      split_ifs
      · exact extends_trans (timer1Pass_extends p d) (ih _)
      · exact timer1Pass_extends p d

theorem timer1Interrupt_disabled_eq (p : Platform) (d : Driver)
    (h : d.waveform.enabled = false) : timer1Interrupt p d = d := by
  unfold timer1Interrupt
  simp only [timer1Loop_disabled p _ d h]

theorem stopWaveform_eq (d : Driver) :
    stopWaveform d =
      if d.timerRunning = true ∧ d.waveform.enabled = true then
        ({ d with
            waveform := { d.waveform with enabled := false }
            timerRunning := false
            trace := d.trace ++ deinitTimerCalls }, true)
      else (d, false) := by
  unfold stopWaveform
  cases hT : d.timerRunning <;> cases hE : d.waveform.enabled <;>
    simp [deinitTimer_eq]

/-! ### C2: stopWaveform -/

/-- C2: `stopWaveform` returns false and changes nothing when the timer
subsystem is not running or no waveform is enabled; otherwise it returns true,
clears `enabled`, marks the timer subsystem as not running and leaves the pin
mask, phase, high and low cycles, pulse count, next service cycle and both
callbacks unchanged. A second call right after a first one returns false and
leaves the state as the first call left it. -/
theorem stopWaveform_contract (d : Driver) :
    ((d.timerRunning = false ∨ d.waveform.enabled = false) → stopWaveform d = (d, false)) ∧
    ((d.timerRunning = true ∧ d.waveform.enabled = true) →
      (stopWaveform d).2 = true ∧
      (stopWaveform d).1.waveform.enabled = false ∧
      (stopWaveform d).1.timerRunning = false ∧
      (stopWaveform d).1.waveform.gpioMask = d.waveform.gpioMask ∧
      (stopWaveform d).1.waveform.state = d.waveform.state ∧
      (stopWaveform d).1.waveform.nextTimeHighCycles = d.waveform.nextTimeHighCycles ∧
      (stopWaveform d).1.waveform.nextTimeLowCycles = d.waveform.nextTimeLowCycles ∧
      (stopWaveform d).1.waveform.pulsesToGo = d.waveform.pulsesToGo ∧
      (stopWaveform d).1.waveform.nextServiceCycle = d.waveform.nextServiceCycle ∧
      (stopWaveform d).1.perPulseCB = d.perPulseCB ∧
      (stopWaveform d).1.pulsesDepletedCB = d.pulsesDepletedCB) ∧
    ((stopWaveform (stopWaveform d).1).2 = false ∧
      (stopWaveform (stopWaveform d).1).1 = (stopWaveform d).1) := by
  refine ⟨?_, ?_, ?_⟩
  · intro h
    rw [stopWaveform_eq]
    rcases h with h | h <;> simp [h]
  · rintro ⟨hT, hE⟩
    rw [stopWaveform_eq]
    simp [hT, hE]
  · rw [stopWaveform_eq d]
    split_ifs <;> simp [stopWaveform_eq, *]

/-- Witness for C2 on the initial state (nothing to stop) and on a running
waveform (stopped, then nothing to stop). -/
theorem stopWaveform_contract_witness :
    stopWaveform initial = (initial, false) ∧
    (stopWaveform running80).2 = true ∧
    (stopWaveform running80).1.waveform.enabled = false ∧
    (stopWaveform (stopWaveform running80).1).2 = false :=
  ⟨(stopWaveform_contract initial).1 (Or.inl rfl),
    ((stopWaveform_contract running80).2.1 ⟨by decide, by decide⟩).1,
    ((stopWaveform_contract running80).2.1 ⟨by decide, by decide⟩).2.1,
    (stopWaveform_contract running80).2.2.1⟩

/-! ### C3 and C4: pin selection -/

theorem setWaveformPulseCountPin_eq (pin : Nat) (d : Driver) :
    setWaveformPulseCountPin pin d =
      if d.timerRunning = true ∨ pin = 16 then (d, false)
      else ({ d with waveform := { d.waveform with gpioMask := 2 ^ pin % 2 ^ 16 } }, true) := by
  unfold setWaveformPulseCountPin
  have hm : (1 <<< pin) % 2 ^ 32 % 2 ^ 16 = 2 ^ pin % 2 ^ 16 := by
    rw [Nat.shiftLeft_eq, Nat.one_mul]
    exact Nat.mod_mod_of_dvd _ (by decide)
  rw [hm]
  by_cases h : d.timerRunning = true ∨ pin = 16
  · rw [if_pos h, if_pos (by simpa using h)]
  · rw [if_neg h, if_neg (by simpa using h)]

/-- C3 (counterexample): after `setPerPulseCallback` with a callback on the
initial state no waveform is enabled, the state is reachable, and selecting
pin 2 is nevertheless refused because the timer subsystem is running. -/
theorem selectPin_inactive_counterexample :
    Reachable esp80 (run esp80 [Op.setOnPulse (some 7)] initial) ∧
    (run esp80 [Op.setOnPulse (some 7)] initial).waveform.enabled = false ∧
    (run esp80 [Op.setOnPulse (some 7)] initial).timerRunning = true ∧
    (setWaveformPulseCountPin 2 (run esp80 [Op.setOnPulse (some 7)] initial)).2 = false := by
  refine ⟨⟨_, rfl⟩, ?_, ?_, ?_⟩ <;> decide

/-- C3 (amended): in every state in which the timer subsystem is not running,
selecting a pin other than 16 (below 32, where the shift is defined) returns
true, stores the 16-bit truncation of `1 << pin` as the pin mask and changes
nothing else; for pins below 16 the stored mask is the single bit `2 ^ pin`. -/
theorem selectPin_timer_idle (d : Driver) (pin : Nat) (hT : d.timerRunning = false)
    (hpin : pin ≠ 16) (_hlt : pin < 32) :
    (setWaveformPulseCountPin pin d).2 = true ∧
    (setWaveformPulseCountPin pin d).1 =
      { d with waveform := { d.waveform with gpioMask := 2 ^ pin % 2 ^ 16 } } ∧
    (pin < 16 → (setWaveformPulseCountPin pin d).1.waveform.gpioMask = 2 ^ pin) := by
  rw [setWaveformPulseCountPin_eq]
  simp only [hT, hpin, Bool.false_eq_true, or_self, if_false, true_and]
  intro h16
  exact Nat.mod_eq_of_lt (Nat.pow_lt_pow_right (by decide) h16)

/-- Witness for the amended C3: pin 2 on the initial state. -/
theorem selectPin_timer_idle_witness :
    (setWaveformPulseCountPin 2 initial).2 = true ∧
    (setWaveformPulseCountPin 2 initial).1.waveform.gpioMask = 2 ^ 2 :=
  ⟨(selectPin_timer_idle initial 2 rfl (by decide) (by decide)).1,
    (selectPin_timer_idle initial 2 rfl (by decide) (by decide)).2.2 (by decide)⟩

theorem startWaveform_eq (p : Platform) (h l n : Nat) (d : Driver) :
    startWaveform p h l n d =
      if d.waveform.enabled = true then
        ({ d with
            waveform := { d.waveform with
              nextTimeHighCycles := sub32 (MicrosecondsToCycles p h) 70 % 2 ^ 31
              nextTimeLowCycles := sub32 (MicrosecondsToCycles p l) 70 % 2 ^ 31
              pulsesToGo := n }
            trace := d.trace ++ [Event.intrLock] ++ [Event.intrUnlock] }, true)
      else
        ((ReloadTimer (MicrosecondsToCycles p 1)
          (if d.timerRunning = true then
            { d with
              waveform := { d.waveform with
                nextTimeHighCycles := sub32 (MicrosecondsToCycles p h) 70 % 2 ^ 31
                nextTimeLowCycles := sub32 (MicrosecondsToCycles p l) 70 % 2 ^ 31
                pulsesToGo := n
                state := false
                nextServiceCycle :=
                  add32 (p.ccount d.reads % 2 ^ 32) (MicrosecondsToCycles p 1)
                enabled := true }
              reads := d.reads + 1
              trace := d.trace ++ [Event.intrLock] }
          else
            initTimer p { d with
              waveform := { d.waveform with
                nextTimeHighCycles := sub32 (MicrosecondsToCycles p h) 70 % 2 ^ 31
                nextTimeLowCycles := sub32 (MicrosecondsToCycles p l) 70 % 2 ^ 31
                pulsesToGo := n
                state := false
                nextServiceCycle :=
                  add32 (p.ccount d.reads % 2 ^ 32) (MicrosecondsToCycles p 1)
                enabled := true }
              reads := d.reads + 1
              trace := d.trace ++ [Event.intrLock] })).emit Event.intrUnlock, true) := by
  rcases d with ⟨⟨nsc, mask, st, hi, en, lo, ptg⟩, cb1, cb2, tr, lcc, rd, trc⟩
  cases en <;> cases tr <;> rfl

theorem setPerPulseCallback_eq (p : Platform) (fn : Option Nat) (d : Driver) :
    setPerPulseCallback p fn d =
      ReloadTimer (MicrosecondsToCycles p 1)
        (if d.timerRunning = false ∧ fn.isSome = true then
            initTimer p { d with perPulseCB := fn }
          else if d.timerRunning = true ∧ fn = none ∧ d.waveform.enabled = false then
            deinitTimer { d with perPulseCB := fn }
          else { d with perPulseCB := fn }) := by
  unfold setPerPulseCallback
  cases hT : d.timerRunning <;> cases hE : d.waveform.enabled <;> cases fn <;> simp [hT, hE]

theorem setPulsesDepletedCallback_eq (p : Platform) (fn : Option Nat) (d : Driver) :
    setPulsesDepletedCallback p fn d =
      ReloadTimer (MicrosecondsToCycles p 1)
        (if d.timerRunning = false ∧ fn.isSome = true then
            initTimer p { d with pulsesDepletedCB := fn }
          else if d.timerRunning = true ∧ fn = none ∧ d.waveform.enabled = false then
            deinitTimer { d with pulsesDepletedCB := fn }
          else { d with pulsesDepletedCB := fn }) := by
  unfold setPulsesDepletedCallback
  cases hT : d.timerRunning <;> cases hE : d.waveform.enabled <;> cases fn <;> simp [hT, hE]

theorem depletionCheck_eq (d : Driver) :
    depletionCheck d =
      if d.waveform.pulsesToGo = 0 then
        match d.pulsesDepletedCB with
        | some fn => (stopWaveform d).1.emit (Event.callPulsesDepleted fn)
        | none => (stopWaveform d).1
      else d := by
  unfold depletionCheck
  have h : (stopWaveform d).1.pulsesDepletedCB = d.pulsesDepletedCB := by
    rw [stopWaveform_eq]; split_ifs <;> rfl
  simp only [h]

theorem timer1Interrupt_eq (p : Platform) (d : Driver) :
    timer1Interrupt p d =
      match (timer1Loop p ((if p.cpu160 then 20 else 10) - 1) d).2 with
      | none => (timer1Loop p ((if p.cpu160 then 20 else 10) - 1) d).1
      | some nec =>
        ReloadTimer (rearmCycles p nec)
          (depletionCheck
            { (timer1Loop p ((if p.cpu160 then 20 else 10) - 1) d).1 with
              lastCycleCount :=
                p.ccount (timer1Loop p ((if p.cpu160 then 20 else 10) - 1) d).1.reads % 2 ^ 32
              reads := (timer1Loop p ((if p.cpu160 then 20 else 10) - 1) d).1.reads + 1 }) := by
  unfold timer1Interrupt
  simp only []
  generalize timer1Loop p ((if p.cpu160 then 20 else 10) - 1) d = r
  rcases r with ⟨d1, _ | nec⟩
  · rfl
  · simp [GetCycleCount]

@[simp] theorem ReloadTimer_waveform (a : Nat) (d : Driver) :
    (ReloadTimer a d).waveform = d.waveform := by
  rw [ReloadTimer_eq]; rfl

@[simp] theorem ReloadTimer_timerRunning (a : Nat) (d : Driver) :
    (ReloadTimer a d).timerRunning = d.timerRunning := by
  rw [ReloadTimer_eq]; rfl

@[simp] theorem ReloadTimer_perPulseCB (a : Nat) (d : Driver) :
    (ReloadTimer a d).perPulseCB = d.perPulseCB := by
  rw [ReloadTimer_eq]; rfl

@[simp] theorem ReloadTimer_pulsesDepletedCB (a : Nat) (d : Driver) :
    (ReloadTimer a d).pulsesDepletedCB = d.pulsesDepletedCB := by
  rw [ReloadTimer_eq]; rfl

@[simp] theorem initTimer_waveform (p : Platform) (d : Driver) :
    (initTimer p d).waveform = d.waveform := rfl

@[simp] theorem initTimer_timerRunning (p : Platform) (d : Driver) :
    (initTimer p d).timerRunning = true := rfl

@[simp] theorem initTimer_perPulseCB (p : Platform) (d : Driver) :
    (initTimer p d).perPulseCB = d.perPulseCB := rfl

@[simp] theorem initTimer_pulsesDepletedCB (p : Platform) (d : Driver) :
    (initTimer p d).pulsesDepletedCB = d.pulsesDepletedCB := rfl

@[simp] theorem deinitTimer_waveform (d : Driver) : (deinitTimer d).waveform = d.waveform := rfl

@[simp] theorem deinitTimer_timerRunning (d : Driver) : (deinitTimer d).timerRunning = false :=
  rfl

@[simp] theorem deinitTimer_perPulseCB (d : Driver) :
    (deinitTimer d).perPulseCB = d.perPulseCB := rfl

@[simp] theorem deinitTimer_pulsesDepletedCB (d : Driver) :
    (deinitTimer d).pulsesDepletedCB = d.pulsesDepletedCB := rfl

theorem startWaveform_enabled (p : Platform) (h l n : Nat) (d : Driver) :
    (startWaveform p h l n d).1.waveform.enabled = true := by
  rw [startWaveform_eq]
  by_cases hE : d.waveform.enabled = true
  · rw [if_pos hE]; exact hE
  · rw [if_neg hE]
    by_cases hT : d.timerRunning = true
    · rw [if_pos hT]; simp only [emit_waveform, ReloadTimer_waveform]
    · rw [if_neg hT]; simp only [emit_waveform, ReloadTimer_waveform, initTimer_waveform]

theorem startWaveform_timerRunning (p : Platform) (h l n : Nat) (d : Driver) :
    (startWaveform p h l n d).1.timerRunning = (d.timerRunning || !d.waveform.enabled) := by
  rw [startWaveform_eq]
  by_cases hE : d.waveform.enabled = true
  · rw [if_pos hE]; simp [hE]
  · rw [if_neg hE]
    by_cases hT : d.timerRunning = true
    · rw [if_pos hT]; simp only [emit_timerRunning, ReloadTimer_timerRunning]; simp [hT]
    · rw [if_neg hT]
      simp only [emit_timerRunning, ReloadTimer_timerRunning, initTimer_timerRunning]
      simp at hE; simp [hE]

theorem startWaveform_gpioMask (p : Platform) (h l n : Nat) (d : Driver) :
    (startWaveform p h l n d).1.waveform.gpioMask = d.waveform.gpioMask := by
  rw [startWaveform_eq]
  by_cases hE : d.waveform.enabled = true
  · rw [if_pos hE]
  · rw [if_neg hE]
    by_cases hT : d.timerRunning = true
    · rw [if_pos hT]; simp only [emit_waveform, ReloadTimer_waveform]
    · rw [if_neg hT]; simp only [emit_waveform, ReloadTimer_waveform, initTimer_waveform]

theorem setPerPulseCallback_waveform (p : Platform) (fn : Option Nat) (d : Driver) :
    (setPerPulseCallback p fn d).waveform = d.waveform := by
  rw [setPerPulseCallback_eq, ReloadTimer_waveform]
  split_ifs <;> rfl

theorem setPulsesDepletedCallback_waveform (p : Platform) (fn : Option Nat) (d : Driver) :
    (setPulsesDepletedCallback p fn d).waveform = d.waveform := by
  rw [setPulsesDepletedCallback_eq, ReloadTimer_waveform]
  split_ifs <;> rfl

theorem setPerPulseCallback_timerRunning (p : Platform) (fn : Option Nat) (d : Driver) :
    (setPerPulseCallback p fn d).timerRunning =
      if d.timerRunning = true then (fn.isSome || d.waveform.enabled) else fn.isSome := by
  rw [setPerPulseCallback_eq, ReloadTimer_timerRunning]
  cases hT : d.timerRunning <;> cases hE : d.waveform.enabled <;> cases fn <;> simp [hT, hE]

theorem setPulsesDepletedCallback_timerRunning (p : Platform) (fn : Option Nat) (d : Driver) :
    (setPulsesDepletedCallback p fn d).timerRunning =
      if d.timerRunning = true then (fn.isSome || d.waveform.enabled) else fn.isSome := by
  rw [setPulsesDepletedCallback_eq, ReloadTimer_timerRunning]
  cases hT : d.timerRunning <;> cases hE : d.waveform.enabled <;> cases fn <;> simp [hT, hE]

/-! ### The timer invariant -/

theorem depletionCheck_timerInv (d : Driver) (h : TimerInv d) : TimerInv (depletionCheck d) := by
  rw [depletionCheck_eq, stopWaveform_eq]
  unfold TimerInv at *
  split_ifs <;> cases d.pulsesDepletedCB <;> simp_all

theorem depletionCheck_gpioMask (d : Driver) :
    (depletionCheck d).waveform.gpioMask = d.waveform.gpioMask := by
  rw [depletionCheck_eq, stopWaveform_eq]
  split_ifs <;> cases d.pulsesDepletedCB <;> simp

theorem depletionCheck_extends (d : Driver) : Extends d (depletionCheck d) := by
  rw [depletionCheck_eq, stopWaveform_eq]
  unfold Extends
  split_ifs
  · cases d.pulsesDepletedCB with
    | none => exact ⟨deinitTimerCalls, rfl⟩
    | some fn => exact ⟨deinitTimerCalls ++ [Event.callPulsesDepleted fn], by simp⟩
  · cases d.pulsesDepletedCB with
    | none => exact ⟨[], by simp⟩
    | some fn => exact ⟨[Event.callPulsesDepleted fn], by simp⟩
  · exact ⟨[], by simp⟩

theorem timer1Interrupt_timerInv (p : Platform) (d : Driver) (h : TimerInv d) :
    TimerInv (timer1Interrupt p d) := by
  rw [timer1Interrupt_eq]
  have hf := timer1Loop_frame p ((if p.cpu160 then 20 else 10) - 1) d
  generalize timer1Loop p ((if p.cpu160 then 20 else 10) - 1) d = r at hf
  rcases r with ⟨d1, _ | nec⟩
  · simp only [LoopFrame, TimerInv] at *
    rw [hf.1, hf.2.1]; exact h
  · have key : ∀ x : Driver, TimerInv x → ∀ a : Nat,
        TimerInv (ReloadTimer a (depletionCheck x)) := by
      intro x hx a
      have h2 := depletionCheck_timerInv x hx
      simpa [TimerInv] using h2
    apply key
    simp only [LoopFrame, TimerInv] at *
    rw [hf.1, hf.2.1]; exact h

theorem timer1Interrupt_gpioMask (p : Platform) (d : Driver) :
    (timer1Interrupt p d).waveform.gpioMask = d.waveform.gpioMask := by
  rw [timer1Interrupt_eq]
  have hf := timer1Loop_frame p ((if p.cpu160 then 20 else 10) - 1) d
  generalize timer1Loop p ((if p.cpu160 then 20 else 10) - 1) d = r at hf
  rcases r with ⟨d1, _ | nec⟩
  · exact hf.2.2.1
  · simp only [ReloadTimer_eq, emit_waveform, depletionCheck_gpioMask]
    exact hf.2.2.1

theorem timer1Interrupt_extends (p : Platform) (d : Driver) :
    Extends d (timer1Interrupt p d) := by
  rw [timer1Interrupt_eq]
  have hf := timer1Loop_extends p ((if p.cpu160 then 20 else 10) - 1) d
  generalize timer1Loop p ((if p.cpu160 then 20 else 10) - 1) d = r at hf
  rcases r with ⟨d1, _ | nec⟩
  · exact hf
  · simp only [ReloadTimer_eq]
    refine extends_trans hf (extends_trans ?_ (extends_emit _ _))
    exact extends_trans ⟨[], by simp⟩ (depletionCheck_extends _)

theorem apply_timerInv (p : Platform) (op : Op) (d : Driver) (h : TimerInv d) :
    TimerInv (op.apply p d) := by
  cases op with
  | selectPin pin =>
    simp only [Op.apply, setWaveformPulseCountPin_eq]
    split_ifs
    · exact h
    · exact h
  | start hi lo n =>
    simp only [Op.apply, TimerInv, startWaveform_timerRunning]
    intro _
    cases hE : d.waveform.enabled
    · simp
    · simp [h hE]
  | stop =>
    simp only [Op.apply, stopWaveform_eq]
    unfold TimerInv at *
    split_ifs <;> simp_all
  | setOnPulse fn =>
    simp only [Op.apply, TimerInv, setPerPulseCallback_waveform,
      setPerPulseCallback_timerRunning]
    intro hE
    simp [h hE, hE]
  | setOnDepleted fn =>
    simp only [Op.apply, TimerInv, setPulsesDepletedCallback_waveform,
      setPulsesDepletedCallback_timerRunning]
    intro hE
    simp [h hE, hE]
  | interrupt => exact timer1Interrupt_timerInv p d h

theorem run_timerInv (p : Platform) (ops : List Op) (d : Driver) (h : TimerInv d) :
    TimerInv (run p ops d) := by
  induction ops generalizing d with
  | nil => exact h
  | cons op ops ih => exact ih _ (apply_timerInv p op d h)

theorem reachable_timerInv (p : Platform) (d : Driver) (h : Reachable p d) : TimerInv d := by
  obtain ⟨ops, rfl⟩ := h
  exact run_timerInv p ops initial (by simp [TimerInv, initial])

theorem apply_gpioMask (p : Platform) (op : Op) (d : Driver)
    (h : d.timerRunning = true ∨ ∀ pin, op ≠ Op.selectPin pin) :
    (op.apply p d).waveform.gpioMask = d.waveform.gpioMask := by
  cases op with
  | selectPin pin =>
    simp only [Op.apply, setWaveformPulseCountPin_eq]
    rcases h with h | h
    · simp [h]
    · exact absurd rfl (h pin)
  | start hi lo n => exact startWaveform_gpioMask p hi lo n d
  | stop =>
    simp only [Op.apply, stopWaveform_eq]
    split_ifs <;> simp
  | setOnPulse fn => simp only [Op.apply, setPerPulseCallback_waveform]
  | setOnDepleted fn => simp only [Op.apply, setPulsesDepletedCallback_waveform]
  | interrupt => exact timer1Interrupt_gpioMask p d

/-- C4: pin selection is refused, with the whole state left as it was, for
every pin in every reachable state in which a waveform is enabled, and for
pin 16 in every state whatsoever; and no entry point changes the pin mask of
a reachable state in which a waveform is enabled. -/
theorem selectPin_rejected (p : Platform) :
    (∀ d : Driver, Reachable p d → d.waveform.enabled = true →
      ∀ pin : Nat, setWaveformPulseCountPin pin d = (d, false)) ∧
    (∀ d : Driver, setWaveformPulseCountPin 16 d = (d, false)) ∧
    (∀ d : Driver, Reachable p d → d.waveform.enabled = true →
      ∀ op : Op, (op.apply p d).waveform.gpioMask = d.waveform.gpioMask) := by
  refine ⟨?_, ?_, ?_⟩
  · intro d hr he pin
    rw [setWaveformPulseCountPin_eq, if_pos (Or.inl (reachable_timerInv p d hr he))]
  · intro d
    rw [setWaveformPulseCountPin_eq, if_pos (Or.inr rfl)]
  · intro d hr he op
    exact apply_gpioMask p op d (Or.inl (reachable_timerInv p d hr he))

/-- Witness for C4: with a waveform running on pin 2, selecting pin 5 is
refused and leaves the state as it was. -/
theorem selectPin_rejected_witness :
    Reachable esp80 running80 ∧ running80.waveform.enabled = true ∧
    setWaveformPulseCountPin 5 running80 = (running80, false) ∧
    (setWaveformPulseCountPin 5 running80).1.waveform.gpioMask = 4 :=
  ⟨⟨_, rfl⟩, by decide,
    (selectPin_rejected esp80).1 running80 ⟨_, rfl⟩ (by decide) 5,
    by rw [(selectPin_rejected esp80).1 running80 ⟨_, rfl⟩ (by decide) 5]; decide⟩

/-! ### C5 and C6: startWaveform -/

theorem MicrosecondsToCycles_one (p : Platform) (h : p.cyclesPerUs < 2 ^ 32) :
    MicrosecondsToCycles p 1 = p.cyclesPerUs := by
  unfold MicrosecondsToCycles mul32
  rw [Nat.mul_one]
  exact Nat.mod_eq_of_lt h

theorem gpioWrites_append (a b : List Event) :
    gpioWrites (a ++ b) = gpioWrites a + gpioWrites b := by
  simp [gpioWrites, List.countP_append]

theorem timerWrites_append (a b : List Event) :
    timerWrites (a ++ b) = timerWrites a + timerWrites b := by
  simp [timerWrites, List.countP_append]

theorem perPulseCalls_append (a b : List Event) :
    perPulseCalls (a ++ b) = perPulseCalls a + perPulseCalls b := by
  simp [perPulseCalls, List.countP_append]

theorem depletedCalls_append (a b : List Event) :
    depletedCalls (a ++ b) = depletedCalls a + depletedCalls b := by
  simp [depletedCalls, List.countP_append]

/-- C5: `startWaveform` called while no waveform is enabled returns true and
leaves the phase low, the waveform enabled, the timer subsystem running, the
pulse count equal to the argument, the next service cycle one microsecond
after the cycle counter value read during the call, and the timer armed with
one microsecond worth of cycles; the pin mask and both callbacks are unchanged
and no GPIO register is written. -/
theorem startWaveform_from_inactive (p : Platform) (h l n : Nat) (d : Driver)
    (hE : d.waveform.enabled = false) (hlo : 32 ≤ p.cyclesPerUs)
    (hhi : p.cyclesPerUs < 2 ^ 32) :
    (startWaveform p h l n d).2 = true ∧
    (startWaveform p h l n d).1.waveform.state = false ∧
    (startWaveform p h l n d).1.waveform.enabled = true ∧
    (startWaveform p h l n d).1.timerRunning = true ∧
    (startWaveform p h l n d).1.waveform.pulsesToGo = n ∧
    (startWaveform p h l n d).1.waveform.nextServiceCycle =
      (p.ccount d.reads % 2 ^ 32 + p.cyclesPerUs) % 2 ^ 32 ∧
    (startWaveform p h l n d).1.waveform.gpioMask = d.waveform.gpioMask ∧
    (startWaveform p h l n d).1.perPulseCB = d.perPulseCB ∧
    (startWaveform p h l n d).1.pulsesDepletedCB = d.pulsesDepletedCB ∧
    (startWaveform p h l n d).1.trace =
      d.trace ++ [Event.intrLock] ++ (if d.timerRunning = true then [] else initTimerCalls) ++
        [Event.timer1Write p.cyclesPerUs, Event.intrUnlock] ∧
    gpioWrites (startWaveform p h l n d).1.trace = gpioWrites d.trace := by
  have hc : (if p.cyclesPerUs > 32 then p.cyclesPerUs else 32) = p.cyclesPerUs := by
    split_ifs <;> omega
  rw [startWaveform_eq, if_neg (by simp [hE]), MicrosecondsToCycles_one p hhi]
  by_cases hT : d.timerRunning = true
  · rw [if_pos hT]
    simp [ReloadTimer_eq, hc, hT, add32, gpioWrites_append, gpioWrites]
  · rw [if_neg hT]
    simp [ReloadTimer_eq, initTimer_eq, hc, hT, add32, gpioWrites_append, gpioWrites,
      initTimerCalls]

/-- Witness for C5: `startWaveform(1000, 1000, 5)` on the initial state of the
80 MHz platform. -/
theorem startWaveform_from_inactive_witness :
    (startWaveform esp80 1000 1000 5 initial).2 = true ∧
    (startWaveform esp80 1000 1000 5 initial).1.waveform.state = false ∧
    (startWaveform esp80 1000 1000 5 initial).1.waveform.enabled = true ∧
    (startWaveform esp80 1000 1000 5 initial).1.timerRunning = true ∧
    (startWaveform esp80 1000 1000 5 initial).1.waveform.pulsesToGo = 5 :=
  have w := startWaveform_from_inactive esp80 1000 1000 5 initial rfl (by decide) (by decide)
  ⟨w.1, w.2.1, w.2.2.1, w.2.2.2.1, w.2.2.2.2.1⟩

/-- C6: `startWaveform` called while a waveform is enabled returns true and
changes only the high cycles, the low cycles and the pulse count; its only
outgoing calls are the interrupt lock and unlock, so no GPIO register is
written and the timer is not armed. -/
theorem startWaveform_retune (p : Platform) (h l n : Nat) (d : Driver)
    (hE : d.waveform.enabled = true) :
    startWaveform p h l n d =
      ({ d with
          waveform := { d.waveform with
            nextTimeHighCycles := sub32 (MicrosecondsToCycles p h) 70 % 2 ^ 31
            nextTimeLowCycles := sub32 (MicrosecondsToCycles p l) 70 % 2 ^ 31
            pulsesToGo := n }
          trace := d.trace ++ [Event.intrLock, Event.intrUnlock] }, true) ∧
    (startWaveform p h l n d).1.waveform.state = d.waveform.state ∧
    (startWaveform p h l n d).1.waveform.nextServiceCycle = d.waveform.nextServiceCycle ∧
    (startWaveform p h l n d).1.waveform.enabled = d.waveform.enabled ∧
    (startWaveform p h l n d).1.waveform.gpioMask = d.waveform.gpioMask ∧
    (startWaveform p h l n d).1.timerRunning = d.timerRunning ∧
    (startWaveform p h l n d).1.perPulseCB = d.perPulseCB ∧
    (startWaveform p h l n d).1.pulsesDepletedCB = d.pulsesDepletedCB ∧
    gpioWrites (startWaveform p h l n d).1.trace = gpioWrites d.trace ∧
    timerWrites (startWaveform p h l n d).1.trace = timerWrites d.trace := by
  rw [startWaveform_eq, if_pos hE]
  simp [gpioWrites_append, timerWrites_append, gpioWrites, timerWrites]

/-- Witness for C6: retuning the waveform that runs on pin 2. -/
theorem startWaveform_retune_witness :
    (startWaveform esp80 500 250 3 running80).1.waveform.pulsesToGo = 3 ∧
    (startWaveform esp80 500 250 3 running80).1.waveform.nextServiceCycle =
      running80.waveform.nextServiceCycle ∧
    timerWrites (startWaveform esp80 500 250 3 running80).1.trace =
      timerWrites running80.trace :=
  have w := startWaveform_retune esp80 500 250 3 running80 (by decide)
  ⟨by rw [w.1], w.2.2.1, w.2.2.2.2.2.2.2.2.2⟩

/-! ### C7: callback registration -/

theorem setPerPulseCallback_trace_last (p : Platform) (fn : Option Nat) (d : Driver) :
    ∃ es : List Event, (setPerPulseCallback p fn d).trace =
      es ++ [Event.timer1Write
        (if MicrosecondsToCycles p 1 > 32 then MicrosecondsToCycles p 1 else 32)] := by
  rw [setPerPulseCallback_eq, ReloadTimer_eq]
  exact ⟨_, rfl⟩

theorem setPulsesDepletedCallback_trace_last (p : Platform) (fn : Option Nat) (d : Driver) :
    ∃ es : List Event, (setPulsesDepletedCallback p fn d).trace =
      es ++ [Event.timer1Write
        (if MicrosecondsToCycles p 1 > 32 then MicrosecondsToCycles p 1 else 32)] := by
  rw [setPulsesDepletedCallback_eq, ReloadTimer_eq]
  exact ⟨_, rfl⟩

theorem setPerPulseCallback_slots (p : Platform) (fn : Option Nat) (d : Driver) :
    (setPerPulseCallback p fn d).perPulseCB = fn ∧
    (setPerPulseCallback p fn d).pulsesDepletedCB = d.pulsesDepletedCB := by
  rw [setPerPulseCallback_eq]
  split_ifs <;> simp

theorem setPulsesDepletedCallback_slots (p : Platform) (fn : Option Nat) (d : Driver) :
    (setPulsesDepletedCallback p fn d).pulsesDepletedCB = fn ∧
    (setPulsesDepletedCallback p fn d).perPulseCB = d.perPulseCB := by
  rw [setPulsesDepletedCallback_eq]
  split_ifs <;> simp

/-- C7 (counterexample): with both callbacks registered and no waveform
enabled, clearing the per-pulse callback stops the timer subsystem although
the pulses-depleted callback is still registered. -/
theorem clearCallback_counterexample :
    (run esp80 [Op.setOnPulse (some 7), Op.setOnDepleted (some 9)] initial).timerRunning = true ∧
    (run esp80 [Op.setOnPulse (some 7), Op.setOnDepleted (some 9)] initial).waveform.enabled
      = false ∧
    (setPerPulseCallback esp80 none
      (run esp80 [Op.setOnPulse (some 7), Op.setOnDepleted (some 9)] initial)).pulsesDepletedCB
      = some 9 ∧
    (setPerPulseCallback esp80 none
      (run esp80 [Op.setOnPulse (some 7), Op.setOnDepleted (some 9)] initial)).timerRunning
      = false := by
  decide

/-- C7 (amended): after `setPerPulseCallback` and, symmetrically,
`setPulsesDepletedCallback`, the slot holds the argument, the other slot and
the waveform are unchanged, and the last outgoing call arms the timer with one
microsecond worth of cycles. The timer subsystem is started exactly when it
was not running and the new callback is present; it is stopped exactly when it
was running, no waveform is enabled and the new callback is absent, whatever
the other slot holds; in every other case the timer-running flag is
unchanged. -/
theorem setCallback_contract (p : Platform) (fn : Option Nat) (d : Driver)
    (hlo : 32 ≤ p.cyclesPerUs) (hhi : p.cyclesPerUs < 2 ^ 32) :
    ((setPerPulseCallback p fn d).perPulseCB = fn ∧
      (setPerPulseCallback p fn d).pulsesDepletedCB = d.pulsesDepletedCB ∧
      (setPerPulseCallback p fn d).waveform = d.waveform ∧
      (∃ es : List Event,
        (setPerPulseCallback p fn d).trace = es ++ [Event.timer1Write p.cyclesPerUs]) ∧
      (((setPerPulseCallback p fn d).timerRunning = true ∧ d.timerRunning = false) ↔
        (d.timerRunning = false ∧ fn.isSome = true)) ∧
      (((setPerPulseCallback p fn d).timerRunning = false ∧ d.timerRunning = true) ↔
        (d.timerRunning = true ∧ d.waveform.enabled = false ∧ fn = none))) ∧
    ((setPulsesDepletedCallback p fn d).pulsesDepletedCB = fn ∧
      (setPulsesDepletedCallback p fn d).perPulseCB = d.perPulseCB ∧
      (setPulsesDepletedCallback p fn d).waveform = d.waveform ∧
      (∃ es : List Event,
        (setPulsesDepletedCallback p fn d).trace = es ++ [Event.timer1Write p.cyclesPerUs]) ∧
      (((setPulsesDepletedCallback p fn d).timerRunning = true ∧ d.timerRunning = false) ↔
        (d.timerRunning = false ∧ fn.isSome = true)) ∧
      (((setPulsesDepletedCallback p fn d).timerRunning = false ∧ d.timerRunning = true) ↔
        (d.timerRunning = true ∧ d.waveform.enabled = false ∧ fn = none))) := by
  have hc : (if MicrosecondsToCycles p 1 > 32 then MicrosecondsToCycles p 1 else 32)
      = p.cyclesPerUs := by
    rw [MicrosecondsToCycles_one p hhi]
    split_ifs <;> omega
  have t1 := setPerPulseCallback_trace_last p fn d
  have t2 := setPulsesDepletedCallback_trace_last p fn d
  rw [hc] at t1 t2
  refine ⟨⟨(setPerPulseCallback_slots p fn d).1, (setPerPulseCallback_slots p fn d).2,
    setPerPulseCallback_waveform p fn d, t1, ?_, ?_⟩,
    ⟨(setPulsesDepletedCallback_slots p fn d).1, (setPulsesDepletedCallback_slots p fn d).2,
    setPulsesDepletedCallback_waveform p fn d, t2, ?_, ?_⟩⟩
  all_goals
    first
      | rw [setPerPulseCallback_timerRunning]
      | rw [setPulsesDepletedCallback_timerRunning]
  all_goals
    cases hT : d.timerRunning <;> cases hE : d.waveform.enabled <;> cases fn <;> simp

/-- Witness for the amended C7 on the 80 MHz platform: registering a callback
on the initial state starts the timer subsystem. -/
theorem setCallback_contract_witness :
    (setPerPulseCallback esp80 (some 7) initial).perPulseCB = some 7 ∧
    (setPerPulseCallback esp80 (some 7) initial).timerRunning = true :=
  have w := setCallback_contract esp80 (some 7) initial (by decide) (by decide)
  ⟨w.1.1, (w.1.2.2.2.2.1.mpr ⟨rfl, rfl⟩).1⟩

/-! ### C8: the interrupt routine with no waveform enabled -/

theorem interrupts_disabled (p : Platform) (k : Nat) (d : Driver)
    (h : d.waveform.enabled = false) : interrupts p k d = d := by
  induction k with
  | zero => rfl
  | succ k ih =>
    show interrupts p k (timer1Interrupt p d) = d
    rw [timer1Interrupt_disabled_eq p d h, ih]

/-- C8: with no waveform enabled the interrupt routine returns from its first
loop pass and leaves the whole state, trace included, as it was: no callback
is invoked, no GPIO register is written and the timer is not armed. Starting a
waveform from such a state and stopping it right away succeeds, and any
number of interrupt invocations afterwards change nothing, so that since the
state before the start there has been no callback invocation and no GPIO
write. -/
theorem timer1Interrupt_disabled (p : Platform) (d : Driver)
    (hE : d.waveform.enabled = false) :
    (∀ n : Nat, timer1Loop p n d = (d, none)) ∧
    timer1Interrupt p d = d ∧
    (∀ h l n k : Nat,
      (stopWaveform (startWaveform p h l n d).1).2 = true ∧
      interrupts p k (stopWaveform (startWaveform p h l n d).1).1 =
        (stopWaveform (startWaveform p h l n d).1).1 ∧
      perPulseCalls (interrupts p k (stopWaveform (startWaveform p h l n d).1).1).trace =
        perPulseCalls d.trace ∧
      depletedCalls (interrupts p k (stopWaveform (startWaveform p h l n d).1).1).trace =
        depletedCalls d.trace ∧
      gpioWrites (interrupts p k (stopWaveform (startWaveform p h l n d).1).1).trace =
        gpioWrites d.trace) := by
  refine ⟨fun n => timer1Loop_disabled p n d hE, timer1Interrupt_disabled_eq p d hE, ?_⟩
  intro h l n k
  have hs : (stopWaveform (startWaveform p h l n d).1).1.waveform.enabled = false := by
    rw [stopWaveform_eq]
    split_ifs with hc
    · rfl
    · simp only [startWaveform_enabled, startWaveform_timerRunning, hE] at hc
      simp at hc
  rw [interrupts_disabled p k _ hs]
  rw [stopWaveform_eq, if_pos ⟨by simp [startWaveform_timerRunning, hE],
    startWaveform_enabled p h l n d⟩]
  refine ⟨rfl, rfl, ?_, ?_, ?_⟩
  all_goals
    rw [startWaveform_eq, if_neg (by simp [hE])]
    by_cases hT : d.timerRunning = true
    · rw [if_pos hT]
      simp [ReloadTimer_eq, perPulseCalls_append, depletedCalls_append, gpioWrites_append,
        perPulseCalls, depletedCalls, gpioWrites, deinitTimerCalls]
    · rw [if_neg hT]
      simp [ReloadTimer_eq, initTimer_eq, perPulseCalls_append, depletedCalls_append,
        gpioWrites_append, perPulseCalls, depletedCalls, gpioWrites, deinitTimerCalls,
        initTimerCalls]

/-- Witness for C8: start, stop and three interrupt invocations from the
initial state of the 80 MHz platform. -/
theorem timer1Interrupt_disabled_witness :
    timer1Interrupt esp80 initial = initial ∧
    perPulseCalls
      (interrupts esp80 3 (stopWaveform (startWaveform esp80 1000 1000 5 initial).1).1).trace
      = 0 :=
  have w := timer1Interrupt_disabled esp80 initial rfl
  ⟨w.2.1, (w.2.2 1000 1000 5 3).2.2.1⟩

/-! ### C9 and C10: the stored durations -/

theorem startWaveform_high (p : Platform) (h l n : Nat) (d : Driver) :
    (startWaveform p h l n d).1.waveform.nextTimeHighCycles =
      sub32 (MicrosecondsToCycles p h) 70 % 2 ^ 31 := by
  rw [startWaveform_eq]
  split_ifs <;> simp [ReloadTimer_eq, initTimer_eq]

theorem startWaveform_low (p : Platform) (h l n : Nat) (d : Driver) :
    (startWaveform p h l n d).1.waveform.nextTimeLowCycles =
      sub32 (MicrosecondsToCycles p l) 70 % 2 ^ 31 := by
  rw [startWaveform_eq]
  split_ifs <;> simp [ReloadTimer_eq, initTimer_eq]

theorem stored_cycles_int (c us : Nat) :
    ((sub32 (mul32 c us) 70 % 2 ^ 31 : Nat) : Int) = ((c : Int) * us - 70) % 2 ^ 31 := by
  unfold sub32 mul32
  have hx : ((c : Int) * (us : Int)) = ((c * us : Nat) : Int) := by push_cast; rfl
  rw [hx]
  generalize c * us = x
  omega

theorem stored_cycles_exact (c us : Nat) (h1 : 70 ≤ c * us) (h2 : c * us < 2 ^ 31 + 70) :
    sub32 (mul32 c us) 70 % 2 ^ 31 = c * us - 70 := by
  unfold sub32 mul32
  generalize c * us = x at *
  omega

/-- C9 (failing input): with a high time of zero microseconds the subtraction
of the 70 cycle compensation wraps, and the stored high duration is
`2 ^ 31 - 70` cycles on every platform and in every state; on the 80 MHz
platform the first interrupt raises the pin and schedules the next event
`2 ^ 31 - 70` cycles after the cycle counter value 300 read in that pass. -/
theorem startWaveform_zero_high (p : Platform) (l n : Nat) (d : Driver) :
    (startWaveform p 0 l n d).1.waveform.nextTimeHighCycles = 2147483578 ∧
    ¬ (startWaveform p 0 l n d).1.waveform.nextTimeHighCycles ≤ 32 ∧
    (timer1Interrupt esp80 zeroHigh80).waveform.state = true ∧
    (timer1Interrupt esp80 zeroHigh80).waveform.enabled = true ∧
    sub32 (timer1Interrupt esp80 zeroHigh80).waveform.nextServiceCycle 300 = 2147483578 := by
  have h0 : (startWaveform p 0 l n d).1.waveform.nextTimeHighCycles = 2147483578 := by
    rw [startWaveform_high]
    simp [MicrosecondsToCycles, mul32, sub32]
  refine ⟨h0, by rw [h0]; decide, by decide, by decide, by decide⟩

/-- C10: `startWaveform` stores, for the high and for the low duration, the
product of the cycles per microsecond and the duration, less 70, computed in
unsigned 32-bit arithmetic and truncated to 31 bits; this is the integer
`cyclesPerUs * us - 70` reduced modulo `2 ^ 31`, it is below `2 ^ 31`, and it
is exactly `cyclesPerUs * us - 70` whenever
`70 ≤ cyclesPerUs * us < 2 ^ 31 + 70`. -/
theorem startWaveform_stored_cycles (p : Platform) (h l n : Nat) (d : Driver) :
    (startWaveform p h l n d).1.waveform.nextTimeHighCycles =
      sub32 (mul32 p.cyclesPerUs h) 70 % 2 ^ 31 ∧
    (startWaveform p h l n d).1.waveform.nextTimeLowCycles =
      sub32 (mul32 p.cyclesPerUs l) 70 % 2 ^ 31 ∧
    (((startWaveform p h l n d).1.waveform.nextTimeHighCycles : Nat) : Int) =
      ((p.cyclesPerUs : Int) * h - 70) % 2 ^ 31 ∧
    (((startWaveform p h l n d).1.waveform.nextTimeLowCycles : Nat) : Int) =
      ((p.cyclesPerUs : Int) * l - 70) % 2 ^ 31 ∧
    (startWaveform p h l n d).1.waveform.nextTimeHighCycles < 2 ^ 31 ∧
    (startWaveform p h l n d).1.waveform.nextTimeLowCycles < 2 ^ 31 ∧
    (70 ≤ p.cyclesPerUs * h → p.cyclesPerUs * h < 2 ^ 31 + 70 →
      (startWaveform p h l n d).1.waveform.nextTimeHighCycles = p.cyclesPerUs * h - 70) ∧
    (70 ≤ p.cyclesPerUs * l → p.cyclesPerUs * l < 2 ^ 31 + 70 →
      (startWaveform p h l n d).1.waveform.nextTimeLowCycles = p.cyclesPerUs * l - 70) := by
  rw [startWaveform_high, startWaveform_low]
  refine ⟨rfl, rfl, stored_cycles_int _ _, stored_cycles_int _ _,
    Nat.mod_lt _ (by decide), Nat.mod_lt _ (by decide), ?_, ?_⟩
  · exact stored_cycles_exact _ _
  · exact stored_cycles_exact _ _

/-- Witness for C10: 1000 microseconds high and 250 microseconds low at
80 MHz are stored as 79930 and 19930 cycles. -/
theorem startWaveform_stored_cycles_witness :
    (startWaveform esp80 1000 250 5 initial).1.waveform.nextTimeHighCycles = 80 * 1000 - 70 ∧
    (startWaveform esp80 1000 250 5 initial).1.waveform.nextTimeLowCycles = 80 * 250 - 70 :=
  have w := startWaveform_stored_cycles esp80 1000 250 5 initial
  ⟨w.2.2.2.2.2.2.1 (by decide) (by decide), w.2.2.2.2.2.2.2 (by decide) (by decide)⟩

/-! ### C1: running a waveform to completion -/

theorem extends_perPulseCalls_le {a b : Driver} (h : Extends a b) :
    perPulseCalls a.trace ≤ perPulseCalls b.trace := by
  obtain ⟨es, h⟩ := h
  rw [h, perPulseCalls_append]
  exact Nat.le_add_right _ _

theorem interrupts_extends (p : Platform) (k : Nat) (d : Driver) :
    Extends d (interrupts p k d) := by
  induction k generalizing d with
  | zero => exact extends_refl d
  | succ k ih => exact extends_trans (timer1Interrupt_extends p d) (ih _)

/-- C1 (failing input): on the 80 MHz platform with a cycle counter that
advances by 100 cycles per read, after a successful pin selection,
registration of both callbacks and `startWaveform(1, 1, 1)`, the first
interrupt invocation toggles the pin ten times, invokes the per-pulse
callback five times and never the pulses-depleted callback, and returns with
the waveform still enabled and the pulse count wrapped to `2 ^ 32 - 4`; hence
no number of interrupt invocations ends with the waveform disabled after
exactly one per-pulse invocation. -/
theorem pulses_overshoot_in_one_interrupt :
    (setWaveformPulseCountPin 2 initial).2 = true ∧
    short80.waveform.enabled = true ∧
    short80.waveform.pulsesToGo = 1 ∧
    perPulseCalls short80.trace = 0 ∧
    (timer1Interrupt esp80 short80).waveform.enabled = true ∧
    perPulseCalls (timer1Interrupt esp80 short80).trace = 5 ∧
    depletedCalls (timer1Interrupt esp80 short80).trace = 0 ∧
    gpioWrites (timer1Interrupt esp80 short80).trace = 10 ∧
    (timer1Interrupt esp80 short80).waveform.pulsesToGo = 4294967292 ∧
    (∀ k : Nat, ¬ ((interrupts esp80 k short80).waveform.enabled = false ∧
      perPulseCalls (interrupts esp80 k short80).trace = 1)) := by
  refine ⟨by decide, by decide, by decide, by decide, by decide, by decide, by decide,
    by decide, by decide, ?_⟩
  intro k
  cases k with
  | zero =>
    rintro ⟨h, -⟩
    exact absurd h (by decide)
  | succ k =>
    rintro ⟨-, h⟩
    have h1 := extends_perPulseCalls_le (interrupts_extends esp80 k (timer1Interrupt esp80 short80))
    have h2 : perPulseCalls (timer1Interrupt esp80 short80).trace = 5 := by decide
    have h3 : interrupts esp80 (k + 1) short80 =
        interrupts esp80 k (timer1Interrupt esp80 short80) := rfl
    rw [h3] at h
    omega

/-! ### One pass of the interrupt loop -/

theorem timer1Pass_not_due (p : Platform) (d : Driver) (h : ¬ cyclesToGo p d < 0) :
    timer1Pass p d =
      ({ d with reads := d.reads + 1 },
        min_u32 (MicrosecondsToCycles p MAXIRQUS)
          (sub32 d.waveform.nextServiceCycle (p.ccount d.reads % 2 ^ 32))) := by
  unfold cyclesToGo at h
  unfold timer1Pass
  simp only [GetCycleCount]
  rw [if_neg h]

theorem timer1Pass_rising (p : Platform) (d : Driver) (h : cyclesToGo p d < 0)
    (hs : d.waveform.state = false) :
    timer1Pass p d =
      ({ d with
          waveform := { d.waveform with
            state := true
            nextServiceCycle :=
              add32 (p.ccount d.reads % 2 ^ 32) d.waveform.nextTimeHighCycles }
          reads := d.reads + 1
          trace := d.trace ++ [Event.writeGPOS d.waveform.gpioMask] },
        min_u32 (MicrosecondsToCycles p MAXIRQUS) d.waveform.nextTimeHighCycles) := by
  unfold cyclesToGo at h
  unfold timer1Pass
  simp only [GetCycleCount]
  rw [if_pos h]
  simp [hs, Driver.emit]

theorem timer1Pass_falling (p : Platform) (d : Driver) (h : cyclesToGo p d < 0)
    (hs : d.waveform.state = true) :
    timer1Pass p d =
      ({ d with
          waveform := { d.waveform with
            state := false
            nextServiceCycle :=
              add32 (p.ccount d.reads % 2 ^ 32) d.waveform.nextTimeLowCycles
            pulsesToGo := sub32 d.waveform.pulsesToGo 1 }
          reads := d.reads + 1
          trace := d.trace ++ [Event.writeGPOC d.waveform.gpioMask] ++
            (match d.perPulseCB with
              | some fn => [Event.callPerPulse fn]
              | none => []) },
        min_u32 (MicrosecondsToCycles p MAXIRQUS) d.waveform.nextTimeLowCycles) := by
  unfold cyclesToGo at h
  unfold timer1Pass
  simp only [GetCycleCount]
  rw [if_pos h]
  cases hcb : d.perPulseCB <;> simp [hs, Driver.emit, hcb]

/-! ### C11: depletion -/

theorem timer1Interrupt_of_loop (p : Platform) (d d1 : Driver) (nec : Nat)
    (h : timer1Loop p (loopCount p - 1) d = (d1, some nec)) :
    timer1Interrupt p d =
      ReloadTimer (rearmCycles p nec)
        (depletionCheck
          { d1 with lastCycleCount := p.ccount d1.reads % 2 ^ 32, reads := d1.reads + 1 }) := by
  unfold loopCount at h
  rw [timer1Interrupt_eq, h]

theorem timer1Loop_enabled_some (p : Platform) (n : Nat) (d : Driver)
    (h : d.waveform.enabled = true) : ∃ nec : Nat, (timer1Loop p n d).2 = some nec := by
  induction n generalizing d with
  | zero => rw [timer1Loop_zero p d h]; exact ⟨_, rfl⟩
  | succ n ih =>
    rw [timer1Loop_succ p n d h]
    split_ifs
    · exact ih _ ((timer1Pass_frame p d).1.trans h)
    · exact ⟨_, rfl⟩

theorem timer1Pass_depletedCalls (p : Platform) (d : Driver) :
    depletedCalls (timer1Pass p d).1.trace = depletedCalls d.trace := by
  by_cases h : cyclesToGo p d < 0
  · cases hs : d.waveform.state
    · rw [timer1Pass_rising p d h hs]
      simp [depletedCalls_append, depletedCalls]
    · rw [timer1Pass_falling p d h hs]
      cases d.perPulseCB <;> simp [depletedCalls_append, depletedCalls]
  · rw [timer1Pass_not_due p d h]

theorem timer1Loop_depletedCalls (p : Platform) (n : Nat) (d : Driver) :
    depletedCalls (timer1Loop p n d).1.trace = depletedCalls d.trace := by
  induction n generalizing d with
  | zero =>
    cases h : d.waveform.enabled
    · rw [timer1Loop_disabled p 0 d h]
    · rw [timer1Loop_zero p d h]; exact timer1Pass_depletedCalls p d
  | succ n ih =>
    cases h : d.waveform.enabled
    · rw [timer1Loop_disabled p _ d h]
    · rw [timer1Loop_succ p n d h]
      split_ifs
      · rw [ih]; exact timer1Pass_depletedCalls p d
      · exact timer1Pass_depletedCalls p d

theorem depletionCheck_nonzero (d : Driver) (h : d.waveform.pulsesToGo ≠ 0) :
    depletionCheck d = d := by
  rw [depletionCheck_eq, if_neg h]

theorem depletionCheck_zero (d : Driver) (h0 : d.waveform.pulsesToGo = 0)
    (hT : d.timerRunning = true) (hE : d.waveform.enabled = true) :
    depletionCheck d =
      { d with
        waveform := { d.waveform with enabled := false }
        timerRunning := false
        trace := d.trace ++ deinitTimerCalls ++
          (match d.pulsesDepletedCB with
            | some fn => [Event.callPulsesDepleted fn]
            | none => []) } := by
  rw [depletionCheck_eq, if_pos h0, stopWaveform_eq, if_pos ⟨hT, hE⟩]
  cases d.pulsesDepletedCB <;> simp [Driver.emit]

/-- C11: for a reachable state with a waveform enabled the loop of the
interrupt routine is left through its condition and invokes no
pulses-depleted callback. If the pulse count is zero after the loop, the
invocation clears `enabled`, marks the timer subsystem as not running and
invokes the pulses-depleted callback exactly once if one is registered (and
not at all otherwise); if the pulse count is not zero, the waveform stays
enabled and the callback is not invoked. -/
theorem depletion_after_loop (p : Platform) (d : Driver) (hr : Reachable p d)
    (hE : d.waveform.enabled = true) :
    (∃ nec : Nat, (timer1Loop p (loopCount p - 1) d).2 = some nec) ∧
    depletedCalls (timer1Loop p (loopCount p - 1) d).1.trace = depletedCalls d.trace ∧
    ((timer1Loop p (loopCount p - 1) d).1.waveform.pulsesToGo = 0 →
      (timer1Interrupt p d).waveform.enabled = false ∧
      (timer1Interrupt p d).timerRunning = false ∧
      depletedCalls (timer1Interrupt p d).trace =
        depletedCalls d.trace + (if d.pulsesDepletedCB.isSome = true then 1 else 0)) ∧
    ((timer1Loop p (loopCount p - 1) d).1.waveform.pulsesToGo ≠ 0 →
      (timer1Interrupt p d).waveform.enabled = true ∧
      (timer1Interrupt p d).timerRunning = true ∧
      depletedCalls (timer1Interrupt p d).trace = depletedCalls d.trace) := by
  have hT : d.timerRunning = true := reachable_timerInv p d hr hE
  have hs := timer1Loop_enabled_some p (loopCount p - 1) d hE
  have hf := timer1Loop_frame p (loopCount p - 1) d
  have hd := timer1Loop_depletedCalls p (loopCount p - 1) d
  obtain ⟨nec, hn⟩ := hs
  have hL : timer1Loop p (loopCount p - 1) d =
      ((timer1Loop p (loopCount p - 1) d).1, some nec) := by
    rw [← hn]
  have hI := timer1Interrupt_of_loop p d _ nec hL
  generalize (timer1Loop p (loopCount p - 1) d).1 = d1 at *
  obtain ⟨f1, f2, -, -, f5, -⟩ := hf
  refine ⟨⟨nec, hn⟩, hd, ?_, ?_⟩
  · intro h0
    have hz := depletionCheck_zero
      { d1 with lastCycleCount := p.ccount d1.reads % 2 ^ 32, reads := d1.reads + 1 }
      h0 (by simpa [hT] using f2) (by simpa [hE] using f1)
    rw [hI, hz, ReloadTimer_eq]
    refine ⟨rfl, rfl, ?_⟩
    simp only [emit_trace, depletedCalls_append, hd, f5]
    cases d.pulsesDepletedCB <;> simp [depletedCalls, deinitTimerCalls]
  · intro h0
    have hz := depletionCheck_nonzero
      { d1 with lastCycleCount := p.ccount d1.reads % 2 ^ 32, reads := d1.reads + 1 } h0
    rw [hI, hz, ReloadTimer_eq]
    refine ⟨by simpa [hE] using f1, by simpa [hT] using f2, ?_⟩
    simp only [emit_trace, depletedCalls_append, hd]
    simp [depletedCalls]

/-- Witness for C11: the first interrupt of the waveform running on pin 2
raises the pin, leaves five pulses to go and keeps the waveform enabled. -/
theorem depletion_after_loop_witness :
    (timer1Interrupt esp80 running80).waveform.enabled = true ∧
    depletedCalls (timer1Interrupt esp80 running80).trace = depletedCalls running80.trace :=
  have w := (depletion_after_loop esp80 running80 ⟨_, rfl⟩ (by decide)).2.2.2 (by decide)
  ⟨w.1, w.2.2⟩

/-! ### C12 to C15: what one loop pass does -/

theorem sub32_one (n : Nat) (h1 : 1 ≤ n) (h2 : n < 2 ^ 32) : sub32 n 1 = n - 1 := by
  unfold sub32
  omega

theorem MicrosecondsToCycles_max (p : Platform) (h : p.cyclesPerUs * 10000 < 2 ^ 32) :
    MicrosecondsToCycles p MAXIRQUS = p.cyclesPerUs * 10000 := by
  unfold MicrosecondsToCycles mul32 MAXIRQUS
  exact Nat.mod_eq_of_lt h

theorem cyclesToGo_neg_iff (p : Platform) (d : Driver) :
    cyclesToGo p d < 0 ↔
      2 ^ 31 ≤ sub32 d.waveform.nextServiceCycle (p.ccount d.reads % 2 ^ 32) := by
  unfold cyclesToGo toInt32 sub32
  split_ifs <;> omega

theorem timer1Pass_due_state (p : Platform) (d : Driver) (h : cyclesToGo p d < 0) :
    (timer1Pass p d).1.waveform.state = (!d.waveform.state) := by
  cases hs : d.waveform.state
  · rw [timer1Pass_rising p d h hs]; rfl
  · rw [timer1Pass_falling p d h hs]; rfl

/-- The pulse count and the per-pulse callback in one loop pass: a
high-to-low toggle stores the 32-bit decrement of the pulse count, which is
smaller by exactly 1 when the count was at least 1, and invokes the per-pulse
callback exactly once if one is registered; a low-to-high toggle and a pass
without a toggle leave the pulse count unchanged and do not invoke the
per-pulse callback. -/
theorem timer1Pass_pulse_count (p : Platform) (d : Driver) :
    (cyclesToGo p d < 0 → d.waveform.state = true →
      (timer1Pass p d).1.waveform.pulsesToGo = sub32 d.waveform.pulsesToGo 1 ∧
      perPulseCalls (timer1Pass p d).1.trace =
        perPulseCalls d.trace + (if d.perPulseCB.isSome = true then 1 else 0) ∧
      (1 ≤ d.waveform.pulsesToGo → d.waveform.pulsesToGo < 2 ^ 32 →
        (timer1Pass p d).1.waveform.pulsesToGo + 1 = d.waveform.pulsesToGo ∧
        (timer1Pass p d).1.waveform.pulsesToGo < d.waveform.pulsesToGo)) ∧
    (cyclesToGo p d < 0 → d.waveform.state = false →
      (timer1Pass p d).1.waveform.pulsesToGo = d.waveform.pulsesToGo ∧
      perPulseCalls (timer1Pass p d).1.trace = perPulseCalls d.trace) ∧
    (¬ cyclesToGo p d < 0 →
      (timer1Pass p d).1.waveform.pulsesToGo = d.waveform.pulsesToGo ∧
      perPulseCalls (timer1Pass p d).1.trace = perPulseCalls d.trace) := by
  refine ⟨?_, ?_, ?_⟩
  · intro h hs
    rw [timer1Pass_falling p d h hs]
    refine ⟨rfl, ?_, ?_⟩
    · simp only [perPulseCalls_append]
      cases d.perPulseCB <;> simp [perPulseCalls]
    · intro h1 h2
      simp only [sub32_one _ h1 h2]
      exact ⟨by omega, by omega⟩
  · intro h hs
    rw [timer1Pass_rising p d h hs]
    simp [perPulseCalls_append, perPulseCalls]
  · intro h
    rw [timer1Pass_not_due p d h]
    exact ⟨rfl, rfl⟩

/-- C12 (failing input): a high-to-low toggle at a pulse count of zero does
not make the pulse count smaller. Inside the first interrupt after
`startWaveform(1, 1, 0)` the waveform is enabled and high with a pulse count
of zero, and the next pass toggles high to low and leaves `2 ^ 32 - 1`. The
same happens between interrupts: after `startWaveform(1000, 1000, 5)`, one
interrupt and a retune to a pulse count of zero, the waveform is enabled and
high with a pulse count of zero, and the next interrupt toggles high to low,
invokes the per-pulse callback once, leaves the pulse count at `2 ^ 32 - 1`
and the waveform enabled, and never invokes the pulses-depleted callback. -/
theorem falling_pass_wraps_at_zero :
    (zeroCount80.waveform.enabled = true ∧
      zeroCount80.waveform.state = true ∧
      zeroCount80.waveform.pulsesToGo = 0 ∧
      cyclesToGo esp80 zeroCount80 < 0 ∧
      (timer1Pass esp80 zeroCount80).1.waveform.state = false ∧
      (timer1Pass esp80 zeroCount80).1.waveform.pulsesToGo = 4294967295 ∧
      ¬ (timer1Pass esp80 zeroCount80).1.waveform.pulsesToGo <
        zeroCount80.waveform.pulsesToGo) ∧
    (retuneZero80.waveform.enabled = true ∧
      retuneZero80.waveform.state = true ∧
      retuneZero80.waveform.pulsesToGo = 0 ∧
      cyclesToGo esp80late retuneZero80 < 0 ∧
      (timer1Interrupt esp80late retuneZero80).waveform.state = false ∧
      (timer1Interrupt esp80late retuneZero80).waveform.pulsesToGo = 4294967295 ∧
      ¬ (timer1Interrupt esp80late retuneZero80).waveform.pulsesToGo <
        retuneZero80.waveform.pulsesToGo ∧
      (timer1Interrupt esp80late retuneZero80).waveform.enabled = true ∧
      gpioWrites (timer1Interrupt esp80late retuneZero80).trace =
        gpioWrites retuneZero80.trace + 1 ∧
      perPulseCalls (timer1Interrupt esp80late retuneZero80).trace =
        perPulseCalls retuneZero80.trace + 1 ∧
      depletedCalls (timer1Interrupt esp80late retuneZero80).trace = 0) := by
  decide

/-- C13: a loop pass that finds the event due flips the phase. If the new
phase is high, its only outgoing call writes the pin mask to the GPIO set
register and the next service cycle is the cycle counter value read in the
pass plus the high cycles, modulo `2 ^ 32`; if the new phase is low, its only
GPIO access writes the pin mask to the GPIO clear register and the next
service cycle is that value plus the low cycles, modulo `2 ^ 32`. The high
cycles, the low cycles, the pin mask and `enabled` are unchanged. -/
theorem due_pass_toggle (p : Platform) (d : Driver) (h : cyclesToGo p d < 0) :
    (timer1Pass p d).1.waveform.state = (!d.waveform.state) ∧
    ((timer1Pass p d).1.waveform.state = true →
      (timer1Pass p d).1.trace = d.trace ++ [Event.writeGPOS d.waveform.gpioMask] ∧
      (timer1Pass p d).1.waveform.nextServiceCycle =
        (p.ccount d.reads % 2 ^ 32 + d.waveform.nextTimeHighCycles) % 2 ^ 32) ∧
    ((timer1Pass p d).1.waveform.state = false →
      (∃ cb : List Event, (∀ e ∈ cb, ∃ fn : Nat, e = Event.callPerPulse fn) ∧
        (timer1Pass p d).1.trace = d.trace ++ [Event.writeGPOC d.waveform.gpioMask] ++ cb) ∧
      (timer1Pass p d).1.waveform.nextServiceCycle =
        (p.ccount d.reads % 2 ^ 32 + d.waveform.nextTimeLowCycles) % 2 ^ 32) ∧
    (timer1Pass p d).1.waveform.nextTimeHighCycles = d.waveform.nextTimeHighCycles ∧
    (timer1Pass p d).1.waveform.nextTimeLowCycles = d.waveform.nextTimeLowCycles ∧
    (timer1Pass p d).1.waveform.gpioMask = d.waveform.gpioMask ∧
    (timer1Pass p d).1.waveform.enabled = d.waveform.enabled := by
  cases hs : d.waveform.state
  · rw [timer1Pass_rising p d h hs]
    simp [add32]
  · rw [timer1Pass_falling p d h hs]
    simp only [Bool.not_true, true_and, Bool.false_eq_true, false_implies, forall_true_left,
      and_true, add32]
    cases d.perPulseCB with
    | none => exact ⟨[], by simp, by simp⟩
    | some fn => exact ⟨[Event.callPerPulse fn], by simp, by simp⟩

/-- Witness for C13: the first pass on the waveform running on pin 2 reads
the cycle counter value 300, raises pin 2 and schedules the next event at
cycle `300 + 79930`. -/
theorem due_pass_toggle_witness :
    (timer1Pass esp80 running80).1.waveform.state = true ∧
    (timer1Pass esp80 running80).1.trace = running80.trace ++ [Event.writeGPOS 4] ∧
    (timer1Pass esp80 running80).1.waveform.nextServiceCycle = 80230 :=
  have w := due_pass_toggle esp80 running80 (by decide)
  ⟨w.1, (w.2.1 w.1).1, (w.2.1 w.1).2⟩

/-- C14 (counterexample): the first pass on the waveform running on pin 2
finds the event scheduled for cycle 180 due at cycle 300 and schedules the
next event at cycle `300 + 79930`, not at `180 + 79930`. -/
theorem schedule_from_now_counterexample :
    running80.waveform.enabled = true ∧
    running80.waveform.nextServiceCycle = 180 ∧
    running80.waveform.nextTimeHighCycles = 79930 ∧
    cyclesToGo esp80 running80 < 0 ∧
    (timer1Pass esp80 running80).1.waveform.state = true ∧
    (timer1Pass esp80 running80).1.waveform.nextServiceCycle = 300 + 79930 ∧
    (timer1Pass esp80 running80).1.waveform.nextServiceCycle ≠
      (running80.waveform.nextServiceCycle + running80.waveform.nextTimeHighCycles)
        % 2 ^ 32 := by
  decide

/-- C14 (amended): at every toggle the new next service cycle is the cycle
counter value read in the pass plus the cycle count of the new phase, modulo
`2 ^ 32`; that is the previous next service cycle plus the lateness of the
pass plus the cycle count of the new phase, and the lateness of a pass that
toggles is at least one cycle. -/
theorem toggle_schedule_from_now (p : Platform) (d : Driver) (h : cyclesToGo p d < 0) :
    1 ≤ sub32 (p.ccount d.reads % 2 ^ 32) d.waveform.nextServiceCycle ∧
    (d.waveform.state = false →
      (timer1Pass p d).1.waveform.nextServiceCycle =
        (p.ccount d.reads % 2 ^ 32 + d.waveform.nextTimeHighCycles) % 2 ^ 32 ∧
      (timer1Pass p d).1.waveform.nextServiceCycle =
        (d.waveform.nextServiceCycle +
          sub32 (p.ccount d.reads % 2 ^ 32) d.waveform.nextServiceCycle +
          d.waveform.nextTimeHighCycles) % 2 ^ 32) ∧
    (d.waveform.state = true →
      (timer1Pass p d).1.waveform.nextServiceCycle =
        (p.ccount d.reads % 2 ^ 32 + d.waveform.nextTimeLowCycles) % 2 ^ 32 ∧
      (timer1Pass p d).1.waveform.nextServiceCycle =
        (d.waveform.nextServiceCycle +
          sub32 (p.ccount d.reads % 2 ^ 32) d.waveform.nextServiceCycle +
          d.waveform.nextTimeLowCycles) % 2 ^ 32) := by
  have hd := (cyclesToGo_neg_iff p d).mp h
  refine ⟨?_, ?_, ?_⟩
  · unfold sub32 at *
    omega
  · intro hs
    rw [timer1Pass_rising p d h hs]
    refine ⟨rfl, ?_⟩
    show add32 _ _ = _
    unfold add32 sub32
    omega
  · intro hs
    rw [timer1Pass_falling p d h hs]
    refine ⟨rfl, ?_⟩
    show add32 _ _ = _
    unfold add32 sub32
    omega

/-- Witness for the amended C14: the pass that runs 120 cycles late on the
waveform running on pin 2 schedules the next event 120 cycles later than the
previous schedule plus the high cycles. -/
theorem toggle_schedule_from_now_witness :
    (timer1Pass esp80 running80).1.waveform.nextServiceCycle =
      (300 + running80.waveform.nextTimeHighCycles) % 2 ^ 32 :=
  ((toggle_schedule_from_now esp80 running80 (by decide)).2.1 (by decide)).1

/-- C15: the due test is safe against wraparound of the cycle counter. A pass
that reads `now = (nextServiceCycle + e) mod 2 ^ 32` with `1 ≤ e < 2 ^ 31`
performs a toggle; a pass that reads `now = (nextServiceCycle - r) mod 2 ^ 32`
with `0 ≤ r < 2 ^ 31` performs no toggle, changes nothing but the read count
and reports `min r (cyclesPerUs * 10000)` cycles until the next event. -/
theorem due_test_wraparound (p : Platform) (d : Driver)
    (hp : p.cyclesPerUs * 10000 < 2 ^ 32) :
    (∀ e : Nat, 1 ≤ e → e < 2 ^ 31 →
      p.ccount d.reads % 2 ^ 32 = (d.waveform.nextServiceCycle + e) % 2 ^ 32 →
      cyclesToGo p d < 0 ∧ (timer1Pass p d).1.waveform.state = (!d.waveform.state)) ∧
    (∀ r : Nat, r < 2 ^ 31 →
      ((p.ccount d.reads % 2 ^ 32 : Nat) : Int) =
        ((d.waveform.nextServiceCycle : Int) - (r : Int)) % 2 ^ 32 →
      ¬ cyclesToGo p d < 0 ∧
      (timer1Pass p d).1.waveform = d.waveform ∧
      (timer1Pass p d).1.trace = d.trace ∧
      (timer1Pass p d).2 = min r (p.cyclesPerUs * 10000)) := by
  refine ⟨?_, ?_⟩
  · intro e h1 h2 hnow
    have hd : cyclesToGo p d < 0 := by
      rw [cyclesToGo_neg_iff, hnow]
      unfold sub32
      omega
    exact ⟨hd, timer1Pass_due_state p d hd⟩
  · intro r h1 hnow
    have hs : sub32 d.waveform.nextServiceCycle (p.ccount d.reads % 2 ^ 32) = r := by
      unfold sub32
      omega
    have hd : ¬ cyclesToGo p d < 0 := by
      rw [cyclesToGo_neg_iff, hs]
      omega
    rw [timer1Pass_not_due p d hd, hs, MicrosecondsToCycles_max p hp]
    refine ⟨hd, rfl, rfl, ?_⟩
    unfold min_u32
    split_ifs <;> omega

/-- Witness for C15 on the 80 MHz platform: an event scheduled for cycle
`2 ^ 32 - 50` is found due at the wrapped cycle counter value 100, which is
150 cycles late; an event scheduled for cycle 1100 is found 1000 cycles ahead
at the cycle counter value 100. -/
theorem due_test_wraparound_witness :
    cyclesToGo esp80
      { initial with waveform := { initial.waveform with nextServiceCycle := 4294967246 } }
      < 0 ∧
    (timer1Pass esp80
      { initial with waveform := { initial.waveform with nextServiceCycle := 1100 } }).2
      = min 1000 (80 * 10000) :=
  have w1 := (due_test_wraparound esp80
    { initial with waveform := { initial.waveform with nextServiceCycle := 4294967246 } }
    (by decide)).1 150 (by decide) (by decide) (by decide)
  have w2 := (due_test_wraparound esp80
    { initial with waveform := { initial.waveform with nextServiceCycle := 1100 } }
    (by decide)).2 1000 (by decide) (by decide)
  ⟨w1.1, w2.2.2.2⟩

/-! ### C16: the timer reload value -/

theorem armedOK_append (a b : List Event) : ArmedOK (a ++ b) ↔ ArmedOK a ∧ ArmedOK b := by
  unfold ArmedOK
  constructor
  · intro h
    exact ⟨fun x hx => h x (List.mem_append_left _ hx),
      fun x hx => h x (List.mem_append_right _ hx)⟩
  · rintro ⟨h1, h2⟩ x hx
    rcases List.mem_append.mp hx with hx | hx
    · exact h1 x hx
    · exact h2 x hx

theorem armedOK_of_extends {a b : Driver} (es : List Event) (h : b.trace = a.trace ++ es)
    (h1 : ArmedOK a.trace) (h2 : ArmedOK es) : ArmedOK b.trace := by
  rw [h, armedOK_append]
  exact ⟨h1, h2⟩

theorem ReloadTimer_armedOK (a : Nat) (d : Driver) (h : ArmedOK d.trace) :
    ArmedOK (ReloadTimer a d).trace := by
  rw [ReloadTimer_eq, emit_trace, armedOK_append]
  refine ⟨h, ?_⟩
  intro x hx
  simp only [List.mem_singleton, Event.timer1Write.injEq] at hx
  rw [hx]
  split_ifs <;> omega

theorem initTimer_armedOK (p : Platform) (d : Driver) (h : ArmedOK d.trace) :
    ArmedOK (initTimer p d).trace := by
  rw [initTimer_eq]
  simp only [armedOK_append]
  exact ⟨h, by simp [ArmedOK, initTimerCalls]⟩

theorem deinitTimer_armedOK (d : Driver) (h : ArmedOK d.trace) :
    ArmedOK (deinitTimer d).trace := by
  rw [deinitTimer_eq]
  simp only [armedOK_append]
  exact ⟨h, by simp [ArmedOK, deinitTimerCalls]⟩

theorem timer1Pass_armedOK (p : Platform) (d : Driver) (h : ArmedOK d.trace) :
    ArmedOK (timer1Pass p d).1.trace := by
  by_cases hd : cyclesToGo p d < 0
  · cases hs : d.waveform.state
    · rw [timer1Pass_rising p d hd hs]
      simp only [armedOK_append]
      exact ⟨h, by simp [ArmedOK]⟩
    · rw [timer1Pass_falling p d hd hs]
      simp only [armedOK_append]
      refine ⟨⟨h, by simp [ArmedOK]⟩, ?_⟩
      cases d.perPulseCB <;> simp [ArmedOK]
  · rw [timer1Pass_not_due p d hd]
    exact h

theorem timer1Loop_armedOK (p : Platform) (n : Nat) (d : Driver) (h : ArmedOK d.trace) :
    ArmedOK (timer1Loop p n d).1.trace := by
  induction n generalizing d with
  | zero =>
    cases hE : d.waveform.enabled
    · rw [timer1Loop_disabled p 0 d hE]; exact h
    · rw [timer1Loop_zero p d hE]; exact timer1Pass_armedOK p d h
  | succ n ih =>
    cases hE : d.waveform.enabled
    · rw [timer1Loop_disabled p _ d hE]; exact h
    · rw [timer1Loop_succ p n d hE]
      split_ifs
      · exact ih _ (timer1Pass_armedOK p d h)
      · exact timer1Pass_armedOK p d h

theorem depletionCheck_armedOK (d : Driver) (h : ArmedOK d.trace) :
    ArmedOK (depletionCheck d).trace := by
  rw [depletionCheck_eq, stopWaveform_eq]
  split_ifs
  · cases d.pulsesDepletedCB with
    | none =>
      simp only [armedOK_append]
      exact ⟨h, by simp [ArmedOK, deinitTimerCalls]⟩
    | some fn =>
      simp only [emit_trace, armedOK_append]
      exact ⟨⟨h, by simp [ArmedOK, deinitTimerCalls]⟩, by simp [ArmedOK]⟩
  · cases d.pulsesDepletedCB with
    | none => exact h
    | some fn =>
      simp only [emit_trace, armedOK_append]
      exact ⟨h, by simp [ArmedOK]⟩
  · exact h

theorem timer1Interrupt_armedOK (p : Platform) (d : Driver) (h : ArmedOK d.trace) :
    ArmedOK (timer1Interrupt p d).trace := by
  rw [timer1Interrupt_eq]
  have hl := timer1Loop_armedOK p ((if p.cpu160 then 20 else 10) - 1) d h
  generalize timer1Loop p ((if p.cpu160 then 20 else 10) - 1) d = r at hl
  rcases r with ⟨d1, _ | nec⟩
  · exact hl
  · exact ReloadTimer_armedOK _ _ (depletionCheck_armedOK _ hl)

theorem apply_armedOK (p : Platform) (op : Op) (d : Driver) (h : ArmedOK d.trace) :
    ArmedOK (op.apply p d).trace := by
  cases op with
  | selectPin pin =>
    simp only [Op.apply, setWaveformPulseCountPin_eq]
    split_ifs
    · exact h
    · exact h
  | start hi lo n =>
    simp only [Op.apply, startWaveform_eq]
    split_ifs
    · simp only [armedOK_append]
      exact ⟨⟨h, by simp [ArmedOK]⟩, by simp [ArmedOK]⟩
    · simp only [emit_trace, armedOK_append]
      refine ⟨ReloadTimer_armedOK _ _ ?_, by simp [ArmedOK]⟩
      simp only [armedOK_append]
      exact ⟨h, by simp [ArmedOK]⟩
    · simp only [emit_trace, armedOK_append]
      refine ⟨ReloadTimer_armedOK _ _ (initTimer_armedOK _ _ ?_), by simp [ArmedOK]⟩
      simp only [armedOK_append]
      exact ⟨h, by simp [ArmedOK]⟩
  | stop =>
    simp only [Op.apply, stopWaveform_eq]
    split_ifs
    · simp only [armedOK_append]
      exact ⟨h, by simp [ArmedOK, deinitTimerCalls]⟩
    · exact h
  | setOnPulse fn =>
    simp only [Op.apply, setPerPulseCallback_eq]
    apply ReloadTimer_armedOK
    split_ifs
    · exact initTimer_armedOK _ _ h
    · exact deinitTimer_armedOK _ h
    · exact h
  | setOnDepleted fn =>
    simp only [Op.apply, setPulsesDepletedCallback_eq]
    apply ReloadTimer_armedOK
    split_ifs
    · exact initTimer_armedOK _ _ h
    · exact deinitTimer_armedOK _ h
    · exact h
  | interrupt => exact timer1Interrupt_armedOK p d h

theorem run_armedOK (p : Platform) (ops : List Op) (d : Driver) (h : ArmedOK d.trace) :
    ArmedOK (run p ops d).trace := by
  induction ops generalizing d with
  | nil => exact h
  | cons op ops ih => exact ih _ (apply_armedOK p op d h)

theorem min_u32_le_left (a b : Nat) : min_u32 a b ≤ a := by
  unfold min_u32
  split_ifs <;> omega

theorem timer1Pass_snd_le (p : Platform) (d : Driver) :
    (timer1Pass p d).2 ≤ MicrosecondsToCycles p MAXIRQUS := by
  by_cases hd : cyclesToGo p d < 0
  · cases hs : d.waveform.state
    · rw [timer1Pass_rising p d hd hs]; exact min_u32_le_left _ _
    · rw [timer1Pass_falling p d hd hs]; exact min_u32_le_left _ _
  · rw [timer1Pass_not_due p d hd]; exact min_u32_le_left _ _

theorem timer1Loop_snd_le (p : Platform) (n : Nat) (d : Driver) (m : Nat)
    (h : (timer1Loop p n d).2 = some m) : m ≤ MicrosecondsToCycles p MAXIRQUS := by
  induction n generalizing d with
  | zero =>
    cases hE : d.waveform.enabled
    · rw [timer1Loop_disabled p 0 d hE] at h; exact absurd h (by simp)
    · rw [timer1Loop_zero p d hE] at h
      simp only [Option.some.injEq] at h
      rw [← h]; exact timer1Pass_snd_le p d
  | succ n ih =>
    cases hE : d.waveform.enabled
    · rw [timer1Loop_disabled p _ d hE] at h; exact absurd h (by simp)
    · rw [timer1Loop_succ p n d hE] at h
      split_ifs at h
      · exact ih _ h
      · simp only [Option.some.injEq] at h
        rw [← h]; exact timer1Pass_snd_le p d

theorem rearmCycles_default (p : Platform) (m : Nat) (hc : p.cpu160 = false)
    (hp : p.cyclesPerUs * 10000 < 2 ^ 32) (hm : m ≤ p.cyclesPerUs * 10000) :
    rearmCycles p m =
      if m ≤ 6 * p.cyclesPerUs then p.cyclesPerUs / 2 else m - 6 * p.cyclesPerUs := by
  have h1 : MicrosecondsToCycles p 1 = p.cyclesPerUs := MicrosecondsToCycles_one p (by omega)
  have h6 : mul32 6 p.cyclesPerUs = 6 * p.cyclesPerUs := by
    unfold mul32
    exact Nat.mod_eq_of_lt (by omega)
  unfold rearmCycles
  simp only [hc, Bool.false_eq_true, if_false, h1, h6]
  split_ifs with hle
  · rfl
  · unfold sub32
    omega

/-- C16: no entry point ever arms the timer with fewer than 32 cycles: every
entry point keeps every timer load in the trace at 32 or more, so this holds
in every reachable state. In the default build, with a waveform enabled and
`m` the cycles until the next event at loop exit, the last outgoing call of
the interrupt routine arms the timer with `cyclesPerUs / 2` when
`m ≤ 6 * cyclesPerUs` and with `max (m - 6 * cyclesPerUs) 32` otherwise, and
that value never exceeds `cyclesPerUs * (10000 - 6)`. -/
theorem timer_never_armed_below_32 (p : Platform) :
    (∀ (op : Op) (d : Driver), ArmedOK d.trace → ArmedOK (op.apply p d).trace) ∧
    (∀ d : Driver, Reachable p d → ArmedOK d.trace) ∧
    (p.cpu160 = false → 64 ≤ p.cyclesPerUs → p.cyclesPerUs * 10000 < 2 ^ 32 →
      ∀ d : Driver, d.waveform.enabled = true →
        ∃ (m : Nat) (es : List Event),
          (timer1Loop p 9 d).2 = some m ∧
          (timer1Interrupt p d).trace =
            es ++ [Event.timer1Write
              (if m ≤ 6 * p.cyclesPerUs then p.cyclesPerUs / 2
                else max (m - 6 * p.cyclesPerUs) 32)] ∧
          (if m ≤ 6 * p.cyclesPerUs then p.cyclesPerUs / 2
            else max (m - 6 * p.cyclesPerUs) 32) ≤ p.cyclesPerUs * (10000 - 6)) := by
  refine ⟨apply_armedOK p, ?_, ?_⟩
  · rintro d ⟨ops, rfl⟩
    exact run_armedOK p ops initial (by simp [ArmedOK, initial])
  · intro hc h64 hp d hE
    have hn : loopCount p - 1 = 9 := by simp [loopCount, hc]
    obtain ⟨m, hm⟩ := timer1Loop_enabled_some p 9 d hE
    have hle := timer1Loop_snd_le p 9 d m hm
    rw [MicrosecondsToCycles_max p hp] at hle
    have hL : timer1Loop p (loopCount p - 1) d = ((timer1Loop p 9 d).1, some m) := by
      rw [hn, ← hm]
    have hI := timer1Interrupt_of_loop p d _ m hL
    rw [ReloadTimer_eq, rearmCycles_default p m hc hp hle] at hI
    refine ⟨m, (depletionCheck
      { (timer1Loop p 9 d).1 with
        lastCycleCount := p.ccount (timer1Loop p 9 d).1.reads % 2 ^ 32
        reads := (timer1Loop p 9 d).1.reads + 1 }).trace, hm, ?_, ?_⟩
    · rw [hI, emit_trace]
      congr 3
      split_ifs <;> omega
    · split_ifs <;> omega

/-- Witness for C16 on the 80 MHz platform: the first interrupt of the
waveform running on pin 2 leaves the loop with 79930 cycles to go and arms
the timer with `79930 - 480` cycles. -/
theorem timer_never_armed_below_32_witness :
    ArmedOK running80.trace ∧
    (∃ (m : Nat) (es : List Event),
      (timer1Loop esp80 9 running80).2 = some m ∧
      (timer1Interrupt esp80 running80).trace =
        es ++ [Event.timer1Write (if m ≤ 6 * 80 then 80 / 2 else max (m - 6 * 80) 32)] ∧
      (if m ≤ 6 * 80 then 80 / 2 else max (m - 6 * 80) 32) ≤ 80 * (10000 - 6)) :=
  ⟨(timer_never_armed_below_32 esp80).2.1 running80 ⟨_, rfl⟩,
    (timer_never_armed_below_32 esp80).2.2 rfl (by decide) (by decide) running80 (by decide)⟩

/-! ### C17: the loop bound -/

theorem timer1Pass_reads (p : Platform) (d : Driver) :
    (timer1Pass p d).1.reads = d.reads + 1 := by
  by_cases hd : cyclesToGo p d < 0
  · cases hs : d.waveform.state
    · rw [timer1Pass_rising p d hd hs]
    · rw [timer1Pass_falling p d hd hs]
  · rw [timer1Pass_not_due p d hd]

theorem timer1Pass_gpioWrites (p : Platform) (d : Driver) :
    gpioWrites (timer1Pass p d).1.trace ≤ gpioWrites d.trace + 1 := by
  by_cases hd : cyclesToGo p d < 0
  · cases hs : d.waveform.state
    · rw [timer1Pass_rising p d hd hs]
      simp [gpioWrites_append, gpioWrites]
    · rw [timer1Pass_falling p d hd hs]
      cases d.perPulseCB <;> simp [gpioWrites_append, gpioWrites]
  · rw [timer1Pass_not_due p d hd]
    exact Nat.le_add_right _ _

theorem timer1Pass_perPulseCalls (p : Platform) (d : Driver) :
    perPulseCalls (timer1Pass p d).1.trace + (if (timer1Pass p d).1.waveform.state then 1 else 0)
      ≤ perPulseCalls d.trace + 1 ∧
    (d.waveform.state = false →
      perPulseCalls (timer1Pass p d).1.trace = perPulseCalls d.trace) := by
  by_cases hd : cyclesToGo p d < 0
  · cases hs : d.waveform.state
    · rw [timer1Pass_rising p d hd hs]
      simp [perPulseCalls_append, perPulseCalls]
    · rw [timer1Pass_falling p d hd hs]
      cases d.perPulseCB <;> simp [perPulseCalls_append, perPulseCalls]
  · rw [timer1Pass_not_due p d hd]
    cases hs : d.waveform.state <;> simp

theorem timer1Loop_bounds (p : Platform) (n : Nat) (d : Driver) :
    (timer1Loop p n d).1.reads ≤ d.reads + (n + 1) ∧
    gpioWrites (timer1Loop p n d).1.trace ≤ gpioWrites d.trace + (n + 1) ∧
    perPulseCalls (timer1Loop p n d).1.trace ≤
      perPulseCalls d.trace + (n + 1 + (if d.waveform.state then 1 else 0)) / 2 := by
  induction n generalizing d with
  | zero =>
    cases hE : d.waveform.enabled
    · rw [timer1Loop_disabled p 0 d hE]
      dsimp only
      exact ⟨by omega, by omega, by omega⟩
    · rw [timer1Loop_zero p d hE]
      dsimp only
      have h1 := timer1Pass_reads p d
      have h2 := timer1Pass_gpioWrites p d
      have h3 := timer1Pass_perPulseCalls p d
      refine ⟨by omega, by omega, ?_⟩
      cases hs : d.waveform.state
      · have := h3.2 hs
        simp only [Bool.false_eq_true, if_false]
        omega
      · have := h3.1
        simp only [if_true]
        omega
  | succ n ih =>
    cases hE : d.waveform.enabled
    · rw [timer1Loop_disabled p _ d hE]
      dsimp only
      exact ⟨by omega, by omega, by omega⟩
    · rw [timer1Loop_succ p n d hE]
      have h1 := timer1Pass_reads p d
      have h2 := timer1Pass_gpioWrites p d
      have h3 := timer1Pass_perPulseCalls p d
      by_cases hlt : (timer1Pass p d).2 < MicrosecondsToCycles p 4
      · rw [if_pos hlt]
        obtain ⟨i1, i2, i3⟩ := ih (timer1Pass p d).1
        refine ⟨by omega, by omega, ?_⟩
        cases hs : d.waveform.state
        · have h4 := h3.2 hs
          simp only [Bool.false_eq_true, if_false]
          have h5 : (if (timer1Pass p d).1.waveform.state = true then 1 else 0) ≤ 1 := by
            split_ifs <;> omega
          omega
        · have h4 := h3.1
          simp only [if_true]
          split_ifs at i3 h4 <;> omega
      · rw [if_neg hlt]
        dsimp only
        refine ⟨by omega, by omega, ?_⟩
        cases hs : d.waveform.state
        · have := h3.2 hs
          simp only [Bool.false_eq_true, if_false]
          omega
        · have := h3.1
          simp only [if_true]
          omega

theorem depletionCheck_counts (d : Driver) :
    gpioWrites (depletionCheck d).trace = gpioWrites d.trace ∧
    perPulseCalls (depletionCheck d).trace = perPulseCalls d.trace := by
  rw [depletionCheck_eq, stopWaveform_eq]
  split_ifs <;> cases d.pulsesDepletedCB <;>
    simp [gpioWrites_append, perPulseCalls_append, gpioWrites, perPulseCalls, deinitTimerCalls]

theorem timer1Interrupt_bounds (p : Platform) (d : Driver) :
    gpioWrites (timer1Interrupt p d).trace ≤ gpioWrites d.trace + loopCount p ∧
    perPulseCalls (timer1Interrupt p d).trace ≤ perPulseCalls d.trace + loopCount p / 2 := by
  have hb := timer1Loop_bounds p (loopCount p - 1) d
  have hc : loopCount p = 10 ∨ loopCount p = 20 := by
    unfold loopCount
    split_ifs <;> simp
  have hs : (if d.waveform.state = true then 1 else 0) ≤ 1 := by split_ifs <;> omega
  rcases h : timer1Loop p (loopCount p - 1) d with ⟨d1, _ | nec⟩
  · have hI : timer1Interrupt p d = d1 := by
      have := timer1Interrupt_eq p d
      unfold loopCount at h
      rw [h] at this
      exact this
    rw [h] at hb
    rw [hI]
    dsimp only at hb
    obtain ⟨-, b2, b3⟩ := hb
    constructor <;> omega
  · rw [timer1Interrupt_of_loop p d d1 nec h, ReloadTimer_eq, emit_trace, gpioWrites_append,
      perPulseCalls_append, (depletionCheck_counts _).1, (depletionCheck_counts _).2]
    rw [h] at hb
    obtain ⟨-, b2, b3⟩ := hb
    have g1 : gpioWrites [Event.timer1Write
        (if rearmCycles p nec > 32 then rearmCycles p nec else 32)] = 0 := by
      simp [gpioWrites]
    have g2 : perPulseCalls [Event.timer1Write
        (if rearmCycles p nec > 32 then rearmCycles p nec else 32)] = 0 := by
      simp [perPulseCalls]
    rw [g1, g2]
    dsimp only at b2 b3 ⊢
    constructor <;> omega

/-- C17: one invocation of the interrupt routine runs at most 10 loop passes
(20 in the 160 MHz build), each pass reading the cycle counter once; it writes
the GPIO registers at most 10 times and invokes the per-pulse callback at most
5 times (20 and 10 in the 160 MHz build). A further pass is started only when
the cycles until the next event reported by the pass just finished are below
`MicrosecondsToCycles 4`. -/
theorem interrupt_loop_bounded (p : Platform) (d : Driver) :
    (p.cpu160 = false →
      (timer1Loop p (loopCount p - 1) d).1.reads ≤ d.reads + 10 ∧
      gpioWrites (timer1Interrupt p d).trace ≤ gpioWrites d.trace + 10 ∧
      perPulseCalls (timer1Interrupt p d).trace ≤ perPulseCalls d.trace + 5) ∧
    (p.cpu160 = true →
      (timer1Loop p (loopCount p - 1) d).1.reads ≤ d.reads + 20 ∧
      gpioWrites (timer1Interrupt p d).trace ≤ gpioWrites d.trace + 20 ∧
      perPulseCalls (timer1Interrupt p d).trace ≤ perPulseCalls d.trace + 10) ∧
    (∀ n : Nat, d.waveform.enabled = true →
      ¬ (timer1Pass p d).2 < MicrosecondsToCycles p 4 →
      timer1Loop p n d = ((timer1Pass p d).1, some (timer1Pass p d).2)) := by
  have hb := timer1Loop_bounds p (loopCount p - 1) d
  have hi := timer1Interrupt_bounds p d
  refine ⟨?_, ?_, ?_⟩
  · intro hc
    have h10 : loopCount p = 10 := by simp [loopCount, hc]
    rw [h10] at hb hi ⊢
    exact ⟨hb.1, hi.1, hi.2⟩
  · intro hc
    have h20 : loopCount p = 20 := by simp [loopCount, hc]
    rw [h20] at hb hi ⊢
    exact ⟨hb.1, hi.1, hi.2⟩
  · intro n hE hge
    cases n with
    | zero => exact timer1Loop_zero p d hE
    | succ n => rw [timer1Loop_succ p n d hE, if_neg hge]

/-- Witness for C17: in the first interrupt after `startWaveform(1, 1, 1)` on
the 80 MHz platform all ten passes toggle, and the bounds of ten GPIO writes
and five per-pulse invocations are attained. -/
theorem interrupt_loop_bounded_witness :
    gpioWrites (timer1Interrupt esp80 short80).trace ≤ gpioWrites short80.trace + 10 ∧
    perPulseCalls (timer1Interrupt esp80 short80).trace ≤ perPulseCalls short80.trace + 5 ∧
    timer1Loop esp80 9 running80 =
      ((timer1Pass esp80 running80).1, some (timer1Pass esp80 running80).2) :=
  ⟨((interrupt_loop_bounded esp80 short80).1 rfl).2.1,
    ((interrupt_loop_bounded esp80 short80).1 rfl).2.2,
    (interrupt_loop_bounded esp80 running80).2.2 9 (by decide) (by decide)⟩

/-! ### C18: the timer invariant -/

/-- C18: in every state reachable from the initial state through the entry
points, an enabled waveform implies that the timer subsystem is running, and
the same holds after every further entry point: the timer subsystem is never
left deinitialised while a waveform is enabled. -/
theorem enabled_implies_timerRunning (p : Platform) (d : Driver) (h : Reachable p d) :
    (d.waveform.enabled = true → d.timerRunning = true) ∧
    (∀ op : Op, (op.apply p d).waveform.enabled = true → (op.apply p d).timerRunning = true) :=
  ⟨reachable_timerInv p d h, fun op => apply_timerInv p op d (reachable_timerInv p d h)⟩

/-- Witness for C18: the waveform running on pin 2 has the timer subsystem
running, also after a callback has been cleared. -/
theorem enabled_implies_timerRunning_witness :
    running80.timerRunning = true ∧
    (setPerPulseCallback esp80 none running80).timerRunning = true :=
  ⟨(enabled_implies_timerRunning esp80 running80 ⟨_, rfl⟩).1 (by decide),
    (enabled_implies_timerRunning esp80 running80 ⟨_, rfl⟩).2 (Op.setOnPulse none) (by decide)⟩

/-! ### C19: a pulse count of zero -/

theorem start_inactive_fields (p : Platform) (h l n : Nat) (d : Driver)
    (hE : d.waveform.enabled = false) :
    (startWaveform p h l n d).1.waveform.enabled = true ∧
    (startWaveform p h l n d).1.waveform.state = false ∧
    (startWaveform p h l n d).1.timerRunning = true ∧
    (startWaveform p h l n d).1.waveform.pulsesToGo = n ∧
    (startWaveform p h l n d).1.waveform.gpioMask = d.waveform.gpioMask ∧
    (startWaveform p h l n d).1.pulsesDepletedCB = d.pulsesDepletedCB := by
  rw [startWaveform_eq, if_neg (by simp [hE])]
  split_ifs with hT <;> simp [ReloadTimer_eq, initTimer_eq, hT]



theorem min_u32_ge (a b c : Nat) (ha : c ≤ a) (hb : c ≤ b) : c ≤ min_u32 a b := by
  unfold min_u32
  split_ifs <;> omega

theorem findsDue_zero (p : Platform) (d : Driver) :
    findsDue p 0 d = (d.waveform.enabled && decide (cyclesToGo p d < 0)) := rfl

theorem findsDue_succ (p : Platform) (n : Nat) (d : Driver) :
    findsDue p (n + 1) d =
      (d.waveform.enabled &&
        (decide (cyclesToGo p d < 0) ||
          (decide ((timer1Pass p d).2 < MicrosecondsToCycles p 4) &&
            findsDue p n (timer1Pass p d).1))) := rfl

theorem timer1Loop_single_rising (p : Platform) (n : Nat) (d : Driver)
    (hE : d.waveform.enabled = true) (hs : d.waveform.state = false)
    (hhigh : MicrosecondsToCycles p 4 ≤ d.waveform.nextTimeHighCycles)
    (hmax : MicrosecondsToCycles p 4 ≤ MicrosecondsToCycles p MAXIRQUS)
    (hdue : findsDue p n d = true) :
    ∃ k : Nat, timer1Loop p n d =
      ({ d with
          waveform := { d.waveform with
            state := true
            nextServiceCycle :=
              add32 (p.ccount (d.reads + k) % 2 ^ 32) d.waveform.nextTimeHighCycles }
          reads := d.reads + k + 1
          trace := d.trace ++ [Event.writeGPOS d.waveform.gpioMask] },
        some (min_u32 (MicrosecondsToCycles p MAXIRQUS) d.waveform.nextTimeHighCycles)) := by
  induction n generalizing d with
  | zero =>
    rw [findsDue_zero, hE] at hdue
    have hd : cyclesToGo p d < 0 := by simpa using hdue
    exact ⟨0, by rw [timer1Loop_zero p d hE, timer1Pass_rising p d hd hs]; rfl⟩
  | succ n ih =>
    rw [findsDue_succ, hE] at hdue
    by_cases hd : cyclesToGo p d < 0
    · refine ⟨0, ?_⟩
      rw [timer1Loop_succ p n d hE, timer1Pass_rising p d hd hs]
      have hge := min_u32_ge _ _ _ hmax hhigh
      rw [if_neg (by dsimp only; omega)]
      rfl
    · have hnd := timer1Pass_not_due p d hd
      simp only [hd, decide_False, Bool.false_or, Bool.true_and, Bool.and_eq_true,
        decide_eq_true_eq] at hdue
      obtain ⟨hlt, hrec⟩ := hdue
      rw [timer1Loop_succ p n d hE, if_pos hlt]
      rw [hnd] at hrec ⊢
      obtain ⟨k, hk⟩ := ih { d with reads := d.reads + 1 } hE hs hhigh hrec
      refine ⟨k + 1, ?_⟩
      rw [hk]
      simp only [Nat.add_assoc, Nat.add_comm 1 k]

/-- C19: after `startWaveform` with a pulse count of zero from a state with
no waveform enabled, with stored high cycles of at least four microseconds
worth of cycles, an interrupt invocation in which some loop pass finds the
event due makes exactly one outgoing GPIO access, the write of the pin mask
to the GPIO set register, then deinitialises the timer, invokes the
pulses-depleted callback once if one is registered, and arms the timer; it
never writes the GPIO clear register, never invokes the per-pulse callback,
and returns with the phase high and `enabled` false. -/
theorem zero_pulses_single_rising_edge (p : Platform) (h l : Nat) (d0 : Driver)
    (hE : d0.waveform.enabled = false) (hp : p.cyclesPerUs * 10000 < 2 ^ 32)
    (hhigh : p.cyclesPerUs * 4 ≤ (startWaveform p h l 0 d0).1.waveform.nextTimeHighCycles)
    (hdue : findsDue p (loopCount p - 1) (startWaveform p h l 0 d0).1 = true) :
    (timer1Interrupt p (startWaveform p h l 0 d0).1).waveform.enabled = false ∧
    (timer1Interrupt p (startWaveform p h l 0 d0).1).waveform.state = true ∧
    (∃ v : Nat, (timer1Interrupt p (startWaveform p h l 0 d0).1).trace =
      (startWaveform p h l 0 d0).1.trace ++ [Event.writeGPOS d0.waveform.gpioMask] ++
        deinitTimerCalls ++
        (match d0.pulsesDepletedCB with
          | some fn => [Event.callPulsesDepleted fn]
          | none => []) ++
        [Event.timer1Write v]) ∧
    gpioWrites (timer1Interrupt p (startWaveform p h l 0 d0).1).trace =
      gpioWrites (startWaveform p h l 0 d0).1.trace + 1 ∧
    perPulseCalls (timer1Interrupt p (startWaveform p h l 0 d0).1).trace =
      perPulseCalls (startWaveform p h l 0 d0).1.trace ∧
    depletedCalls (timer1Interrupt p (startWaveform p h l 0 d0).1).trace =
      depletedCalls (startWaveform p h l 0 d0).1.trace +
        (if d0.pulsesDepletedCB.isSome = true then 1 else 0) := by
  have hw := start_inactive_fields p h l 0 d0 hE
  obtain ⟨w1, w2, w3, w4, w5, w6⟩ := hw
  generalize (startWaveform p h l 0 d0).1 = d at *
  have h4 : MicrosecondsToCycles p 4 = p.cyclesPerUs * 4 := by
    unfold MicrosecondsToCycles mul32
    exact Nat.mod_eq_of_lt (by omega)
  have hmax : MicrosecondsToCycles p 4 ≤ MicrosecondsToCycles p MAXIRQUS := by
    rw [h4, MicrosecondsToCycles_max p hp]
    omega
  obtain ⟨k, hk⟩ := timer1Loop_single_rising p (loopCount p - 1) d w1 w2
    (by rw [h4]; exact hhigh) hmax hdue
  have e1 : (timer1Loop p (loopCount p - 1) d).1.waveform.pulsesToGo = 0 := by
    rw [hk]; exact w4
  have e2 : (timer1Loop p (loopCount p - 1) d).1.waveform.enabled = true := by
    rw [hk]; exact w1
  have e3 : (timer1Loop p (loopCount p - 1) d).1.timerRunning = true := by
    rw [hk]; exact w3
  have e4 : (timer1Loop p (loopCount p - 1) d).1.waveform.state = true := by
    rw [hk]
  have e5 : (timer1Loop p (loopCount p - 1) d).1.trace =
      d.trace ++ [Event.writeGPOS d0.waveform.gpioMask] := by
    rw [hk, ← w5]
  have e6 : (timer1Loop p (loopCount p - 1) d).1.pulsesDepletedCB = d0.pulsesDepletedCB := by
    rw [hk]; exact w6
  have hL : timer1Loop p (loopCount p - 1) d = ((timer1Loop p (loopCount p - 1) d).1,
      some (min_u32 (MicrosecondsToCycles p MAXIRQUS) d.waveform.nextTimeHighCycles)) := by
    rw [hk]
  generalize (timer1Loop p (loopCount p - 1) d).1 = d1 at e1 e2 e3 e4 e5 e6 hL
  have hI := timer1Interrupt_of_loop p d d1 _ hL
  have hz := depletionCheck_zero
    { d1 with lastCycleCount := p.ccount d1.reads % 2 ^ 32, reads := d1.reads + 1 } e1 e3 e2
  rw [hz, ReloadTimer_eq] at hI
  rw [hI]
  simp only [emit_trace, emit_waveform, e4, e5, e6, gpioWrites_append, perPulseCalls_append,
    depletedCalls_append, true_and]
  refine ⟨⟨_, rfl⟩, ?_, ?_, ?_⟩
  · cases d0.pulsesDepletedCB <;> simp [gpioWrites, deinitTimerCalls]
  · cases d0.pulsesDepletedCB <;> simp [perPulseCalls, deinitTimerCalls]
  · cases d0.pulsesDepletedCB <;> simp [depletedCalls, deinitTimerCalls]

/-- Witness for C19: on the 80 MHz platform, after
`startWaveform(1000, 1000, 0)` with a pulses-depleted callback registered, the
first interrupt finds the event due, raises pin 2 once and reports depletion
once. -/
theorem zero_pulses_single_rising_edge_witness :
    (timer1Interrupt esp80 zeroPulses80).waveform.enabled = false ∧
    gpioWrites (timer1Interrupt esp80 zeroPulses80).trace = gpioWrites zeroPulses80.trace + 1 ∧
    perPulseCalls (timer1Interrupt esp80 zeroPulses80).trace = perPulseCalls zeroPulses80.trace ∧
    depletedCalls (timer1Interrupt esp80 zeroPulses80).trace =
      depletedCalls zeroPulses80.trace + 1 :=
  have w := zero_pulses_single_rising_edge esp80 1000 1000
    (run esp80 [Op.selectPin 2, Op.setOnDepleted (some 9)] initial)
    (by decide) (by decide) (by decide) (by decide)
  ⟨w.1, w.2.2.2.1, w.2.2.2.2.1, w.2.2.2.2.2⟩

/-! ### C20: the 16-bit pin mask -/

theorem timer1Pass_gpio_mask (p : Platform) (d : Driver) :
    ∃ es : List Event, (timer1Pass p d).1.trace = d.trace ++ es ∧
      ∀ m : Nat, (Event.writeGPOS m ∈ es ∨ Event.writeGPOC m ∈ es) → m = d.waveform.gpioMask := by
  by_cases hd : cyclesToGo p d < 0
  · cases hs : d.waveform.state
    · rw [timer1Pass_rising p d hd hs]
      exact ⟨[Event.writeGPOS d.waveform.gpioMask], rfl, by simp⟩
    · rw [timer1Pass_falling p d hd hs]
      cases d.perPulseCB with
      | none => exact ⟨[Event.writeGPOC d.waveform.gpioMask], by simp, by simp⟩
      | some fn =>
        exact ⟨[Event.writeGPOC d.waveform.gpioMask, Event.callPerPulse fn], by simp, by simp⟩
  · rw [timer1Pass_not_due p d hd]
    exact ⟨[], by simp, by simp⟩

/-- C20: while the timer subsystem is not running, selecting a pin below 16
returns true and stores the single-bit mask `2 ^ pin`; selecting a pin from 17
to 31 also returns true but stores the mask 0, because `1 << pin` does not fit
in the 16-bit field, and with a mask of 0 every GPIO register write of a loop
pass writes 0, so that no pin is driven. -/
theorem selectPin_mask_bits (d : Driver) (hT : d.timerRunning = false) :
    (∀ pin : Nat, pin < 16 →
      (setWaveformPulseCountPin pin d).2 = true ∧
      (setWaveformPulseCountPin pin d).1.waveform.gpioMask = 2 ^ pin) ∧
    (∀ pin : Nat, 17 ≤ pin → pin ≤ 31 →
      (setWaveformPulseCountPin pin d).2 = true ∧
      (setWaveformPulseCountPin pin d).1.waveform.gpioMask = 0 ∧
      ∀ (p : Platform) (d1 : Driver),
        d1.waveform.gpioMask = (setWaveformPulseCountPin pin d).1.waveform.gpioMask →
        ∃ es : List Event, (timer1Pass p d1).1.trace = d1.trace ++ es ∧
          ∀ m : Nat, (Event.writeGPOS m ∈ es ∨ Event.writeGPOC m ∈ es) → m = 0) := by
  refine ⟨?_, ?_⟩
  · intro pin hlt
    rw [setWaveformPulseCountPin_eq, if_neg (by simp [hT]; omega)]
    exact ⟨rfl, Nat.mod_eq_of_lt (Nat.pow_lt_pow_right (by decide) hlt)⟩
  · intro pin h17 _
    rw [setWaveformPulseCountPin_eq, if_neg (by simp [hT]; omega)]
    have h0 : 2 ^ pin % 2 ^ 16 = 0 :=
      Nat.mod_eq_zero_of_dvd (Nat.pow_dvd_pow 2 (by omega))
    refine ⟨rfl, h0, ?_⟩
    intro p d1 hm
    obtain ⟨es, h1, h2⟩ := timer1Pass_gpio_mask p d1
    refine ⟨es, h1, fun m hmem => ?_⟩
    rw [h2 m hmem, hm]
    exact h0

/-- Witness for C20: on the initial state pin 3 gets the mask 8 and pin 17
gets the mask 0. -/
theorem selectPin_mask_bits_witness :
    (setWaveformPulseCountPin 3 initial).1.waveform.gpioMask = 2 ^ 3 ∧
    (setWaveformPulseCountPin 17 initial).2 = true ∧
    (setWaveformPulseCountPin 17 initial).1.waveform.gpioMask = 0 :=
  ⟨((selectPin_mask_bits initial rfl).1 3 (by decide)).2,
    ((selectPin_mask_bits initial rfl).2 17 (by decide) (by decide)).1,
    ((selectPin_mask_bits initial rfl).2 17 (by decide) (by decide)).2.1⟩

end WaveformPulseCounter
